import Mathlib

/-!
Verification of the topic connection checker node
(src/common/autoware_debug_tools/autoware_debug_tools/topic_connection_checker/node.py).

The Python node is embedded shallowly.  The ROS middleware introspection
surface (topic type lookup, publisher info by topic, subscriptions by node,
message arrival during the observation window) is an explicit environment
record `GraphEnv`; the node's mutable state (`topic_data`, `checked_topics`,
`reported_topics`, `topics_to_check_next_round`, `important_topics`, the
created subscriptions and the emitted log lines) is a `CheckerState` record
threaded through one pure function per method of `TopicConnectionChecker`.
Timestamps are `Nat`.  Python sets are lists kept duplicate-free by
`setInsert`; the Python dict `topic_data` is an association list with
dict-style insert/update.  A round's concurrent message deliveries are
modelled as a batch (`deliver_all`) between the subscription phase and the
timer-driven `finish_check`, which is how the round window behaves at the
level of abstraction the claims are about.  `finish_check` returns an
`Option`: `none` models the `KeyError` raised by
`self.topic_data[topic]["publishers"] = ...` when a topic in
`important_topics` has no `topic_data` entry.
-/

inductive Durability where
  | volatile
  | transient_local
deriving DecidableEq, Repr

inductive Reliability where
  | best_effort
  | reliable
deriving DecidableEq, Repr

inductive History where
  | keep_last
  | keep_all
deriving DecidableEq, Repr

/-- The delivery-quality profile, with exactly the eight fields the Python
code copies in `get_publisher_qos`.  Duration-valued fields are `Nat`. -/
structure QoSProfile where
  durability : Durability
  reliability : Reliability
  history : History
  depth : Nat
  lifespan : Nat
  deadline : Nat
  liveliness : Nat
  liveliness_lease_duration : Nat
deriving DecidableEq, Repr

/-- `self.default_qos_profile` from `__init__`: volatile durability,
best-effort reliability, keep-last history, depth 1.  The rclpy defaults for
the remaining duration fields are modelled as 0. -/
def default_qos_profile : QoSProfile :=
  { durability := Durability.volatile
    reliability := Reliability.best_effort
    history := History.keep_last
    depth := 1
    lifespan := 0
    deadline := 0
    liveliness := 0
    liveliness_lease_duration := 0 }

/-- One element of `get_publishers_info_by_topic`. -/
structure PublisherInfo where
  node_name : String
  node_namespace : String
  qos_profile : QoSProfile
deriving DecidableEq, Repr

/-- One entry of the `self.topic_data` dict:
`{"received": False, "publishers": [], "last_received": None}`. -/
structure TopicObservation where
  received : Bool
  publishers : List (String × String)
  last_received : Option Nat
deriving DecidableEq, Repr

/-- A log line emitted by the node, tagged by which logging call produced
it.  Only the data the claims inspect is carried. -/
inductive LogEntry where
  | warnNoType (topic : String)
  | errorImport (topic : String)
  | warnStuck (topic : String) (node : String)
  | warnUnexpected (topic : String)
  | infoNextRound (topics : List String)
  | errorNoPublisher (node : String) (topic : String)
  | debugStatus (topic : String) (stuck : Bool)
  | debugNotChecked (topic : String)
deriving DecidableEq, Repr

/-- The external graph introspection service and the message traffic of the
observation window:
`topic_names_and_types` backs `get_topic_names_and_types`,
`importable` tells whether the dynamic import of a message type succeeds,
`publishers_info` backs `get_publishers_info_by_topic`,
`node_subscriptions` backs `get_subscriber_names_and_types_by_node`
(topic names only; the types are unused by the code), and
`arrivals t = some ts` means a message arrives on a live subscription to
`t` during the round, at clock value `ts`. -/
structure GraphEnv where
  topic_names_and_types : List (String × List String)
  importable : String → Bool
  publishers_info : String → List PublisherInfo
  node_subscriptions : String → String → List String
  arrivals : String → Option Nat

/-- The mutable state of the `TopicConnectionChecker` instance, plus the
subscriptions it created and the log it emitted. -/
structure CheckerState where
  important_topics : List String
  ignore_topics : List String
  topic_data : List (String × TopicObservation)
  topics_to_check_next_round : List String
  checked_topics : List String
  reported_topics : List String
  subscriptions : List (String × QoSProfile)
  logs : List LogEntry
deriving DecidableEq, Repr

/-- Python `set.add`: append only when absent, so duplicate-free lists stay
duplicate-free. -/
def setInsert (s : List String) (x : String) : List String :=
  if x ∈ s then s else s ++ [x]

/-- Dict lookup on the association list backing `self.topic_data`. -/
def tdLookup : List (String × TopicObservation) → String → Option TopicObservation
  | [], _ => none
  | (k, v) :: rest, topic => if k = topic then some v else tdLookup rest topic

/-- `topic in self.topic_data`. -/
def tdContains (td : List (String × TopicObservation)) (topic : String) : Bool :=
  (tdLookup td topic).isSome

/-- Dict assignment `self.topic_data[topic] = v`: replace in place if the
key exists, else append. -/
def tdInsert (td : List (String × TopicObservation)) (topic : String)
    (v : TopicObservation) : List (String × TopicObservation) :=
  if tdContains td topic then
    td.map (fun p => if p.1 = topic then (p.1, v) else p)
  else td ++ [(topic, v)]

/-- In-place mutation of one dict value, e.g.
`self.topic_data[topic]["received"] = True`. -/
def tdUpdate (td : List (String × TopicObservation)) (topic : String)
    (f : TopicObservation → TopicObservation) : List (String × TopicObservation) :=
  td.map (fun p => if p.1 = topic then (p.1, f p.2) else p)

/-- `get_topic_type`: scan `get_topic_names_and_types()`, return the first
type of the first matching topic with a nonempty type list. -/
def get_topic_type : List (String × List String) → String → Option String
  | [], _ => none
  | (t, types) :: rest, topic =>
    if t = topic ∧ types ≠ [] then types.head? else get_topic_type rest topic

/-- `get_publisher_qos`: the default profile when the topic has no
publisher, otherwise a field-by-field copy of the first publisher's
profile. -/
def get_publisher_qos (env : GraphEnv) (topic : String) : QoSProfile :=
  match env.publishers_info topic with
  | [] => default_qos_profile
  | p :: _ =>
    { durability := p.qos_profile.durability
      reliability := p.qos_profile.reliability
      history := p.qos_profile.history
      depth := p.qos_profile.depth
      lifespan := p.qos_profile.lifespan
      deadline := p.qos_profile.deadline
      liveliness := p.qos_profile.liveliness
      liveliness_lease_duration := p.qos_profile.liveliness_lease_duration }

/-- Splitting a character list at every occurrence of a separator, as
Python str.split does (adjacent separators yield empty pieces). -/
def splitCharsOn (c : Char) : List Char → List (List Char)
  | [] => [[]]
  | ch :: rest =>
    let r := splitCharsOn c rest
    if ch = c then [] :: r
    else (ch :: r.headD []) :: r.tail

/-- Python `s.split(sep)` for a single-character separator. -/
def pySplit (sep : Char) (s : String) : List String :=
  (splitCharsOn sep s.data).map (fun l => String.mk l)

/-- `check_topic`: resolve the topic's type (warn and stop on failure), do
the dynamic import (`package/middle/name` must split into exactly three
parts, and the import itself must succeed; error and stop on failure), then
create the `topic_data` entry and a subscription with the QoS from
`get_publisher_qos`. -/
def check_topic (env : GraphEnv) (s : CheckerState) (topic : String) : CheckerState :=
  match get_topic_type env.topic_names_and_types topic with
  | none => { s with logs := s.logs ++ [LogEntry.warnNoType topic] }
  | some msg_type =>
    if (pySplit '/' msg_type).length = 3 ∧ env.importable msg_type = true then
      { s with
        topic_data := tdInsert s.topic_data topic
          { received := false, publishers := [], last_received := none }
        subscriptions := s.subscriptions ++ [(topic, get_publisher_qos env topic)] }
    else { s with logs := s.logs ++ [LogEntry.errorImport topic] }

/-- One iteration of the subscription loop of `check_topics`: skip a topic
already in `checked_topics`, otherwise run `check_topic` and add the topic
to `checked_topics` (the add is unconditional on `check_topic`'s success). -/
def check_topics_step (env : GraphEnv) (s : CheckerState) (topic : String) : CheckerState :=
  if topic ∈ s.checked_topics then s
  else
    let s2 := check_topic env s topic
    { s2 with checked_topics := setInsert s2.checked_topics topic }

/-- The subscription loop of `check_topics` over `important_topics`. -/
def check_topics_sub (env : GraphEnv) (s : CheckerState) : CheckerState :=
  s.important_topics.foldl (check_topics_step env) s

/-- `topic_callback`: under the lock, set `received` and `last_received`
together. -/
def topic_callback (s : CheckerState) (topic : String) (now : Nat) : CheckerState :=
  { s with
    topic_data := tdUpdate s.topic_data topic
      (fun d => { d with received := true, last_received := some now }) }

/-- One message delivery attempt for one subscription during the window. -/
def deliver_step (env : GraphEnv) (s : CheckerState) (sub : String × QoSProfile) : CheckerState :=
  match env.arrivals sub.1 with
  | some now => topic_callback s sub.1 now
  | none => s

/-- The message deliveries of one observation window: every currently
created subscription whose topic has traffic (`env.arrivals`) fires its
callback once. -/
def deliver_all (env : GraphEnv) (s : CheckerState) : CheckerState :=
  s.subscriptions.foldl (deliver_step env) s

/-- The loop body of `finish_check` over `important_topics`.
`self.topic_data[topic]["publishers"] = [...]` raises `KeyError` when the
topic has no entry; that failure is the `none` case. -/
def finish_check_go (env : GraphEnv) :
    List String → CheckerState → Option CheckerState
  | [], s => some s
  | topic :: rest, s =>
    if tdContains s.topic_data topic then
      finish_check_go env rest
        { s with
          topic_data := tdUpdate s.topic_data topic
            (fun d =>
              { d with
                publishers :=
                  (env.publishers_info topic).map
                    (fun p => (p.node_name, p.node_namespace)) }) }
    else none

/-- `finish_check`: store the `(node_name, node_namespace)` publisher pairs
for every topic in the current round's `important_topics`, then signal
round completion (the signal itself carries no data and is not modelled). -/
def finish_check (env : GraphEnv) (s : CheckerState) : Option CheckerState :=
  finish_check_go env s.important_topics s

/-- One iteration of the classification loop of `analyze_results`,
threading the state and the `stuck_topics` work list over one
`topic_data` entry. -/
def classify_entry (acc : CheckerState × List String)
    (e : String × TopicObservation) : CheckerState × List String :=
  let s := acc.1
  let stuck := acc.2
  let topic := e.1
  let data := e.2
  if data.received = false then
    if topic ∉ s.ignore_topics ∧ data.publishers.length = 1 ∧
        topic ∉ s.reported_topics then
      ({ s with
          logs := s.logs ++ [LogEntry.warnStuck topic (data.publishers.headD ("", "")).1]
          reported_topics := setInsert s.reported_topics topic },
        stuck ++ [topic])
    else (s, stuck)
  else if data.last_received.isSome then (s, stuck)
  else ({ s with logs := s.logs ++ [LogEntry.warnUnexpected topic] }, stuck)

/-- The classification loop of `analyze_results`: iterate the `topic_data`
entries, collecting the stuck work list. -/
def analyze_classify (s : CheckerState) : CheckerState × List String :=
  s.topic_data.foldl classify_entry (s, [])

/-- The body of the tracing loop of `analyze_topic_connections` for a
single subscribed topic of one publisher node.  Mirrors the Python
control flow exactly: an ignore-listed topic is skipped; zero publishers
logs an error but does not skip the rest of the body; more than two
publishers skips the rest of the body; otherwise a tracked topic gets a
status debug line, and an untracked, unchecked topic is added to the
frontier. -/
def trace_step (env : GraphEnv) (node_name : String) (s : CheckerState)
    (topic : String) : CheckerState :=
  if topic ∈ s.ignore_topics then s
  else
    let pubs := env.publishers_info topic
    let s1 :=
      if pubs.length = 0 then
        { s with logs := s.logs ++ [LogEntry.errorNoPublisher node_name topic] }
      else s
    if pubs.length > 2 then s1
    else
      match tdLookup s1.topic_data topic with
      | some d =>
        { s1 with logs := s1.logs ++ [LogEntry.debugStatus topic (!d.received)] }
      | none =>
        if topic ∈ s1.checked_topics then s1
        else
          { s1 with
            logs := s1.logs ++ [LogEntry.debugNotChecked topic]
            topics_to_check_next_round :=
              setInsert s1.topics_to_check_next_round topic }

/-- The tracing loop over one publisher node `(node_name, node_namespace)`
of a stuck topic: walk every topic that node subscribes to. -/
def trace_node (env : GraphEnv) (s : CheckerState) (pub : String × String) : CheckerState :=
  (env.node_subscriptions pub.1 pub.2).foldl (trace_step env pub.1) s

/-- `analyze_topic_connections`: for every publisher of the stuck topic,
walk that node's subscribed topics with `trace_step`.  A stuck topic always
has a `topic_data` entry (it came out of the classification loop), so the
`[]` default of the lookup is never taken on real calls. -/
def analyze_topic_connections (env : GraphEnv) (s : CheckerState)
    (stuck_topic : String) : CheckerState :=
  let pubs := ((tdLookup s.topic_data stuck_topic).map
    (fun d => d.publishers)).getD []
  pubs.foldl (trace_node env) s

/-- `analyze_results`: classify every tracked topic, trace each stuck one,
then, when the frontier is nonempty, log it, make it the next round's
`important_topics`, clear it and start another round (the returned `Bool`
is whether `check_topics` is invoked again). -/
def analyze_results (env : GraphEnv) (s : CheckerState) : CheckerState × Bool :=
  let r := analyze_classify s
  let s2 := r.2.foldl (analyze_topic_connections env) r.1
  if s2.topics_to_check_next_round = [] then (s2, false)
  else
    ({ s2 with
        logs := s2.logs ++ [LogEntry.infoNextRound s2.topics_to_check_next_round]
        important_topics := s2.topics_to_check_next_round
        topics_to_check_next_round := [] },
      true)

/-- One full round of `check_topics`: subscribe to the unchecked important
topics, let the window's messages arrive, run the timer's `finish_check`
(propagating its `KeyError` as `none`), then analyze. -/
def run_round (env : GraphEnv) (s : CheckerState) : Option (CheckerState × Bool) :=
  match finish_check env (deliver_all env (check_topics_sub env s)) with
  | none => none
  | some s3 => some (analyze_results env s3)

/-- The recursive rounds driven from within `analyze_results`, with fuel to
make the recursion structural.  `none` means either fuel ran out or a round
raised. -/
def run_rounds (env : GraphEnv) : Nat → CheckerState → Option CheckerState
  | 0, _ => none
  | fuel + 1, s =>
    match run_round env s with
    | none => none
    | some (s1, true) => run_rounds env fuel s1
    | some (s1, false) => some s1

/-- The state built by `__init__`: the seeded important topics, the ignore
list, and everything else empty. -/
def initial_state : CheckerState :=
  { important_topics :=
      ["/control/command/control_cmd",
       "/control/trajectory_follower/control_cmd",
       "/control/shift_decider/gear_cmd",
       "/planning/scenario_planning/trajectory",
       "/planning/turn_indicators_cmd",
       "/planning/mission_planning/route",
       "/perception/traffic_light_recognition/traffic_signals",
       "/perception/object_recognition/objects"]
    ignore_topics := ["/rosout", "/parameter_events"]
    topic_data := []
    topics_to_check_next_round := []
    checked_topics := []
    reported_topics := []
    subscriptions := []
    logs := [] }

/-! ### Basic lemmas about the set and dict encodings -/

theorem mem_setInsert (s : List String) (x y : String) :
    y ∈ setInsert s x ↔ y = x ∨ y ∈ s := by
  unfold setInsert
  split_ifs with h
  · constructor
    · exact fun hy => Or.inr hy
    · rintro (rfl | hy) <;> assumption
  · simp [List.mem_append, or_comm]

theorem subset_setInsert (s : List String) (x : String) : s ⊆ setInsert s x := by
  intro y hy
  exact (mem_setInsert s x y).mpr (Or.inr hy)

theorem nodup_setInsert (s : List String) (x : String) (h : s.Nodup) :
    (setInsert s x).Nodup := by
  unfold setInsert
  split_ifs with hx
  · exact h
  · simpa [List.nodup_append] using ⟨h, hx⟩

theorem tdLookup_cons (e : String × TopicObservation)
    (rest : List (String × TopicObservation)) (t : String) :
    tdLookup (e :: rest) t = if e.1 = t then some e.2 else tdLookup rest t := rfl

theorem tdUpdate_cons (e : String × TopicObservation)
    (rest : List (String × TopicObservation)) (k : String)
    (f : TopicObservation → TopicObservation) :
    tdUpdate (e :: rest) k f =
      (if e.1 = k then (e.1, f e.2) else e) :: tdUpdate rest k f := rfl

theorem tdLookup_tdUpdate (td : List (String × TopicObservation)) (k t : String)
    (f : TopicObservation → TopicObservation) :
    tdLookup (tdUpdate td k f) t =
      if k = t then (tdLookup td t).map f else tdLookup td t := by
  induction td with
  | nil => simp [tdUpdate, tdLookup]
  | cons e rest ih =>
    rw [tdUpdate_cons, tdLookup_cons, tdLookup_cons]
    by_cases hek : e.1 = k
    · subst hek
      by_cases het : e.1 = t <;> simp [het, ih]
    · rw [if_neg hek]
      by_cases het : e.1 = t
      · have hkt : ¬k = t := fun h => hek (h ▸ het)
        simp [het, hkt]
      · simp [het, ih]

theorem tdContains_tdUpdate (td : List (String × TopicObservation)) (k t : String)
    (f : TopicObservation → TopicObservation) :
    tdContains (tdUpdate td k f) t = tdContains td t := by
  unfold tdContains
  rw [tdLookup_tdUpdate]
  split_ifs <;> simp

theorem tdUpdate_keys (td : List (String × TopicObservation)) (k : String)
    (f : TopicObservation → TopicObservation) :
    (tdUpdate td k f).map Prod.fst = td.map Prod.fst := by
  induction td with
  | nil => rfl
  | cons e rest ih =>
    by_cases hek : e.1 = k <;> simp [tdUpdate, hek] at ih ⊢ <;> exact ih

theorem tdInsert_eq (td : List (String × TopicObservation)) (k : String)
    (v : TopicObservation) :
    tdInsert td k v =
      if tdContains td k then tdUpdate td k (fun _ => v) else td ++ [(k, v)] := rfl

theorem tdLookup_append_single (td : List (String × TopicObservation)) (k t : String)
    (v : TopicObservation) (h : k ≠ t) :
    tdLookup (td ++ [(k, v)]) t = tdLookup td t := by
  induction td with
  | nil => simp [tdLookup, h]
  | cons e rest ih => rw [List.cons_append, tdLookup_cons, tdLookup_cons, ih]

theorem tdLookup_tdInsert_ne (td : List (String × TopicObservation)) (k t : String)
    (v : TopicObservation) (h : k ≠ t) :
    tdLookup (tdInsert td k v) t = tdLookup td t := by
  rw [tdInsert_eq]
  split_ifs with hc
  · rw [tdLookup_tdUpdate, if_neg h]
  · exact tdLookup_append_single td k t v h

theorem tdUpdate_mem (td : List (String × TopicObservation)) (k : String)
    (f : TopicObservation → TopicObservation) (e : String × TopicObservation)
    (he : e ∈ tdUpdate td k f) : ∃ d0, (e.1, d0) ∈ td ∧ (e.2 = d0 ∨ e.2 = f d0) := by
  unfold tdUpdate at he
  rcases List.mem_map.mp he with ⟨e0, he0, heq⟩
  obtain ⟨a, b⟩ := e0
  subst heq
  by_cases h0 : a = k
  · subst h0
    exact ⟨b, by simpa using he0, Or.inr (by simp)⟩
  · exact ⟨b, by simpa [h0] using he0, Or.inl (by simp [h0])⟩

theorem tdInsert_mem (td : List (String × TopicObservation)) (k : String)
    (v : TopicObservation) (e : String × TopicObservation) (he : e ∈ tdInsert td k v) :
    e ∈ td ∨ e.2 = v := by
  obtain ⟨e1, e2⟩ := e
  rw [tdInsert_eq] at he
  split_ifs at he with hc
  · rcases tdUpdate_mem td k (fun _ => v) (e1, e2) he with ⟨d0, hd0, h1 | h1⟩
    · simp only at h1
      subst h1
      exact Or.inl hd0
    · exact Or.inr h1
  · rcases List.mem_append.mp he with h1 | h1
    · exact Or.inl h1
    · simp only [List.mem_singleton, Prod.mk.injEq] at h1
      exact Or.inr h1.2

/-! ### Log counting helpers -/

/-- Recognizer for the stuck warning about topic `t`. -/
def isStuckWarnFor (t : String) : LogEntry → Bool
  | LogEntry.warnStuck t2 _ => t2 == t
  | _ => false

/-- Recognizer for the unexpected-state warning about topic `t`. -/
def isUnexpectedFor (t : String) : LogEntry → Bool
  | LogEntry.warnUnexpected t2 => t2 == t
  | _ => false

/-- Recognizer for any unexpected-state warning. -/
def isUnexpectedWarn : LogEntry → Bool
  | LogEntry.warnUnexpected _ => true
  | _ => false

/-- How many stuck warnings about `t` the log holds. -/
def countStuck (t : String) (logs : List LogEntry) : Nat :=
  logs.countP (isStuckWarnFor t)

/-- How many unexpected-state warnings about `t` the log holds. -/
def countUnexpected (t : String) (logs : List LogEntry) : Nat :=
  logs.countP (isUnexpectedFor t)

theorem countStuck_append (t : String) (l1 l2 : List LogEntry) :
    countStuck t (l1 ++ l2) = countStuck t l1 + countStuck t l2 := by
  simp [countStuck, List.countP_append]

theorem countUnexpected_append (t : String) (l1 l2 : List LogEntry) :
    countUnexpected t (l1 ++ l2) = countUnexpected t l1 + countUnexpected t l2 := by
  simp [countUnexpected, List.countP_append]

/-! ### Generic fold preservation -/

theorem foldl_preserve {α σ : Type} (P : σ → Prop) (f : σ → α → σ)
    (h : ∀ s a, P s → P (f s a)) :
    ∀ (l : List α) (s : σ), P s → P (l.foldl f s) := by
  intro l
  induction l with
  | nil => intro s hs; exact hs
  | cons a rest ih => intro s hs; exact ih (f s a) (h s a hs)

theorem foldl_preserve_mem {α σ : Type} (P : σ → Prop) (f : σ → α → σ) :
    ∀ (l : List α), (∀ s a, a ∈ l → P s → P (f s a)) →
      ∀ (s : σ), P s → P (l.foldl f s) := by
  intro l
  induction l with
  | nil => intro _ s hs; exact hs
  | cons a rest ih =>
    intro h s hs
    exact ih (fun s1 b hb => h s1 b (List.mem_cons_of_mem a hb)) (f s a)
      (h s a (List.mem_cons_self a rest) hs)

/-! ### Shape lemmas: what each operation does to the state record -/

/-- The fresh observation created by `check_topic`. -/
def obsInit : TopicObservation :=
  { received := false, publishers := [], last_received := none }

theorem check_topic_cases (env : GraphEnv) (s : CheckerState) (t : String) :
    (∃ l : List LogEntry, check_topic env s t = { s with logs := s.logs ++ l } ∧
      (∀ u, l.countP (isStuckWarnFor u) = 0) ∧
      (∀ u, l.countP (isUnexpectedFor u) = 0) ∧
      l.countP isUnexpectedWarn = 0) ∨
    check_topic env s t =
      { s with
        topic_data := tdInsert s.topic_data t obsInit
        subscriptions := s.subscriptions ++ [(t, get_publisher_qos env t)] } := by
  cases hty : get_topic_type env.topic_names_and_types t with
  | none =>
    refine Or.inl ⟨[LogEntry.warnNoType t], ?_, ?_, ?_, ?_⟩
    · simp [check_topic, hty]
    · intro u; simp [isStuckWarnFor]
    · intro u; simp [isUnexpectedFor]
    · simp [isUnexpectedWarn]
  | some mt =>
    by_cases h : (pySplit '/' mt).length = 3 ∧ env.importable mt = true
    · refine Or.inr ?_
      simp [check_topic, hty, h, obsInit]
    · refine Or.inl ⟨[LogEntry.errorImport t], ?_, ?_, ?_, ?_⟩
      · simp [check_topic, hty, h]
      · intro u; simp [isStuckWarnFor]
      · intro u; simp [isUnexpectedFor]
      · simp [isUnexpectedWarn]

theorem classify_entry_cases (acc : CheckerState × List String)
    (e : String × TopicObservation) :
    (classify_entry acc e =
        ({ acc.1 with
            logs := acc.1.logs ++
              [LogEntry.warnStuck e.1 (e.2.publishers.headD ("", "")).1]
            reported_topics := setInsert acc.1.reported_topics e.1 },
          acc.2 ++ [e.1]) ∧
      e.2.received = false ∧ e.1 ∉ acc.1.ignore_topics ∧
      e.2.publishers.length = 1 ∧ e.1 ∉ acc.1.reported_topics) ∨
    (classify_entry acc e = acc ∧
      (e.2.received = false ∨ e.2.last_received.isSome = true)) ∨
    (classify_entry acc e =
        ({ acc.1 with logs := acc.1.logs ++ [LogEntry.warnUnexpected e.1] }, acc.2) ∧
      e.2.received = true ∧ e.2.last_received = none) := by
  by_cases h1 : e.2.received = false
  · by_cases h2 : e.1 ∉ acc.1.ignore_topics ∧ e.2.publishers.length = 1 ∧
        e.1 ∉ acc.1.reported_topics
    · exact Or.inl ⟨by simp [classify_entry, h1, h2], h1, h2.1, h2.2.1, h2.2.2⟩
    · exact Or.inr (Or.inl ⟨by simp [classify_entry, h1, h2], Or.inl h1⟩)
  · have h1t : e.2.received = true := by
      cases h : e.2.received with
      | false => exact absurd h h1
      | true => rfl
    by_cases h3 : e.2.last_received.isSome = true
    · exact Or.inr (Or.inl ⟨by simp [classify_entry, h1, h3], Or.inr h3⟩)
    · refine Or.inr (Or.inr ⟨by simp [classify_entry, h1, h3], h1t, ?_⟩)
      exact Option.not_isSome_iff_eq_none.mp (by simpa using h3)

theorem trace_step_cases (env : GraphEnv) (n : String) (s : CheckerState) (t : String) :
    ∃ (l : List LogEntry) (f : List String),
      trace_step env n s t = { s with logs := s.logs ++ l, topics_to_check_next_round := f } ∧
      (f = s.topics_to_check_next_round ∨ f = setInsert s.topics_to_check_next_round t) ∧
      (∀ u, l.countP (isStuckWarnFor u) = 0) ∧
      (∀ u, l.countP (isUnexpectedFor u) = 0) ∧
      l.countP isUnexpectedWarn = 0 := by
  by_cases hig : t ∈ s.ignore_topics
  · exact ⟨[], s.topics_to_check_next_round, by simp [trace_step, hig], Or.inl rfl,
      by simp, by simp, by simp⟩
  · by_cases h0 : (env.publishers_info t).length = 0
    · have h2 : ¬(env.publishers_info t).length > 2 := by omega
      cases hl : tdLookup s.topic_data t with
      | some d =>
        exact ⟨[LogEntry.errorNoPublisher n t, LogEntry.debugStatus t (!d.received)],
          s.topics_to_check_next_round,
          by simp [trace_step, hig, h0, h2, hl], Or.inl rfl,
          by intro u; simp [isStuckWarnFor], by intro u; simp [isUnexpectedFor],
          by simp [isUnexpectedWarn]⟩
      | none =>
        by_cases hc : t ∈ s.checked_topics
        · exact ⟨[LogEntry.errorNoPublisher n t], s.topics_to_check_next_round,
            by simp [trace_step, hig, h0, h2, hl, hc], Or.inl rfl,
            by intro u; simp [isStuckWarnFor], by intro u; simp [isUnexpectedFor],
            by simp [isUnexpectedWarn]⟩
        · exact ⟨[LogEntry.errorNoPublisher n t, LogEntry.debugNotChecked t],
            setInsert s.topics_to_check_next_round t,
            by simp [trace_step, hig, h0, h2, hl, hc], Or.inr rfl,
            by intro u; simp [isStuckWarnFor], by intro u; simp [isUnexpectedFor],
            by simp [isUnexpectedWarn]⟩
    · by_cases h2 : (env.publishers_info t).length > 2
      · exact ⟨[], s.topics_to_check_next_round, by simp [trace_step, hig, h0, h2],
          Or.inl rfl, by simp, by simp, by simp⟩
      · cases hl : tdLookup s.topic_data t with
        | some d =>
          exact ⟨[LogEntry.debugStatus t (!d.received)], s.topics_to_check_next_round,
            by simp [trace_step, hig, h0, h2, hl], Or.inl rfl,
            by intro u; simp [isStuckWarnFor], by intro u; simp [isUnexpectedFor],
            by simp [isUnexpectedWarn]⟩
        | none =>
          by_cases hc : t ∈ s.checked_topics
          · exact ⟨[], s.topics_to_check_next_round,
              by simp [trace_step, hig, h0, h2, hl, hc], Or.inl rfl,
              by simp, by simp, by simp⟩
          · exact ⟨[LogEntry.debugNotChecked t], setInsert s.topics_to_check_next_round t,
              by simp [trace_step, hig, h0, h2, hl, hc], Or.inr rfl,
              by intro u; simp [isStuckWarnFor], by intro u; simp [isUnexpectedFor],
              by simp [isUnexpectedWarn]⟩

/-! ### Concrete environments and states used by witnesses and counterexamples -/

/-- A distinctive publisher QoS profile. -/
def sample_qos : QoSProfile :=
  { durability := Durability.transient_local
    reliability := Reliability.reliable
    history := History.keep_all
    depth := 7
    lifespan := 11
    deadline := 12
    liveliness := 13
    liveliness_lease_duration := 14 }

/-- An introspection environment with an empty graph. -/
def empty_env : GraphEnv :=
  { topic_names_and_types := []
    importable := fun _ => false
    publishers_info := fun _ => []
    node_subscriptions := fun _ _ => []
    arrivals := fun _ => none }

/-- An environment where every topic has one publisher `N` with
`sample_qos`. -/
def one_pub_env : GraphEnv :=
  { empty_env with
    publishers_info := fun _ =>
      [{ node_name := "N", node_namespace := "/", qos_profile := sample_qos }] }

/-- An environment where every topic has three publishers. -/
def three_pub_env : GraphEnv :=
  { empty_env with
    publishers_info := fun _ =>
      [{ node_name := "N1", node_namespace := "/", qos_profile := sample_qos },
       { node_name := "N2", node_namespace := "/", qos_profile := sample_qos },
       { node_name := "N3", node_namespace := "/", qos_profile := sample_qos }] }

/-- The §8 round-trip scenario: `/a` has the single publisher `N1`, `N1`
subscribes to `/b`, `/b` has no publishers. -/
def trace_env : GraphEnv :=
  { topic_names_and_types := [("/a", ["std_msgs/msg/Header"])]
    importable := fun _ => true
    publishers_info := fun t =>
      if t = "/a" then
        [{ node_name := "N1", node_namespace := "/", qos_profile := sample_qos }]
      else []
    node_subscriptions := fun n _ => if n = "N1" then ["/b"] else []
    arrivals := fun _ => none }

/-- The checker state right after `/a`'s first round closed: `/a` checked,
observed not received, with its one publisher resolved. -/
def trace_state : CheckerState :=
  { initial_state with
    important_topics := ["/a"]
    topic_data :=
      [("/a", { received := false, publishers := [("N1", "/")], last_received := none })]
    checked_topics := ["/a"]
    subscriptions := [("/a", sample_qos)] }

/-- A state whose only important topic `/x` has no resolvable type in
`empty_env`. -/
def noType_state : CheckerState := { initial_state with important_topics := ["/x"] }

/-- A state tracking one silent topic with zero publishers. -/
def silent_state : CheckerState :=
  { initial_state with
    topic_data :=
      [("/z", { received := false, publishers := [], last_received := none })] }

/-! ### C7: QoS resolution policy -/

/-- C7: when a subscription is created for a topic, the QoS profile used is
the fixed default profile (volatile durability, best-effort reliability,
keep-last history, depth 1) if the topic currently has no publishers, and
otherwise is a copy of an existing (the first) publisher's profile in all
eight fields. -/
theorem subscription_qos_policy (env : GraphEnv) (t : String) :
    (env.publishers_info t = [] → get_publisher_qos env t = default_qos_profile) ∧
    (∀ p ps, env.publishers_info t = p :: ps →
      get_publisher_qos env t = p.qos_profile) ∧
    (∀ s, (check_topic env s t).subscriptions = s.subscriptions ∨
      (check_topic env s t).subscriptions =
        s.subscriptions ++ [(t, get_publisher_qos env t)]) := by
  refine ⟨?_, ?_, ?_⟩
  · intro h
    simp [get_publisher_qos, h]
  · intro p ps h
    obtain ⟨pn, pns, q⟩ := p
    obtain ⟨q1, q2, q3, q4, q5, q6, q7, q8⟩ := q
    simp [get_publisher_qos, h]
  · intro s
    rcases check_topic_cases env s t with ⟨l, heq, _⟩ | heq
    · left
      rw [heq]
    · right
      rw [heq]

/-- Witness for C7 at concrete inputs: no publisher gives the default
profile, one publisher gives that publisher's profile. -/
theorem subscription_qos_policy_witness :
    get_publisher_qos empty_env "/x" = default_qos_profile ∧
    get_publisher_qos one_pub_env "/x" = sample_qos :=
  ⟨(subscription_qos_policy empty_env "/x").1 rfl,
   (subscription_qos_policy one_pub_env "/x").2.1
     { node_name := "N", node_namespace := "/", qos_profile := sample_qos } [] rfl⟩

/-! ### C8: more than two publishers are skipped entirely while tracing -/

/-- C8: a subscribed topic with more than two publishers is skipped
entirely by the tracing loop body: the state (logs, frontier, everything)
is unchanged. -/
theorem fanin_skip (env : GraphEnv) (n : String) (s : CheckerState) (t : String)
    (h2 : (env.publishers_info t).length > 2) :
    trace_step env n s t = s := by
  by_cases hig : t ∈ s.ignore_topics
  · simp [trace_step, hig]
  · have h0 : ¬(env.publishers_info t).length = 0 := by omega
    simp [trace_step, hig, h0, h2]

/-- Witness for C8: with three publishers the trace body is the
identity. -/
theorem fanin_skip_witness :
    (three_pub_env.publishers_info "/m").length > 2 ∧
    trace_step three_pub_env "N1" trace_state "/m" = trace_state :=
  ⟨by decide, fanin_skip three_pub_env "N1" trace_state "/m" (by decide)⟩

/-! ### C2: zero-publisher leads while tracing -/

/-- C2 counterexample: tracing the stuck topic `/a` whose publisher `N1`
subscribes to the zero-publisher topic `/b` logs the no-publisher error,
but `/b` IS added to the frontier (the Python `if len == 0` branch does not
skip the rest of the loop body), contradicting the claim that a
zero-publisher lead is never added to the frontier. -/
theorem trace_zero_pub_cex :
    LogEntry.errorNoPublisher "N1" "/b" ∈
      (analyze_topic_connections trace_env trace_state "/a").logs ∧
    "/b" ∈ (analyze_topic_connections trace_env trace_state "/a").topics_to_check_next_round := by
  decide

/-- C2 (amended): during tracing, a non-ignored subscribed topic with zero
publishers always gets the no-publisher error logged, and it is added to
the frontier exactly when it is untracked and unchecked; only a tracked or
already-checked zero-publisher lead is terminal. -/
theorem trace_zero_pub (env : GraphEnv) (n : String) (s : CheckerState) (t : String)
    (hig : t ∉ s.ignore_topics) (hz : env.publishers_info t = []) :
    LogEntry.errorNoPublisher n t ∈ (trace_step env n s t).logs ∧
    (trace_step env n s t).topics_to_check_next_round =
      (if tdContains s.topic_data t = true ∨ t ∈ s.checked_topics
       then s.topics_to_check_next_round
       else setInsert s.topics_to_check_next_round t) := by
  have h0 : (env.publishers_info t).length = 0 := by simp [hz]
  have h2 : ¬(env.publishers_info t).length > 2 := by omega
  cases hl : tdLookup s.topic_data t with
  | some d =>
    constructor
    · simp [trace_step, hig, h0, h2, hl]
    · simp [trace_step, hig, h0, h2, hl, tdContains]
  | none =>
    by_cases hc : t ∈ s.checked_topics
    · constructor
      · simp [trace_step, hig, h0, h2, hl, hc]
      · simp [trace_step, hig, h0, h2, hl, hc, tdContains]
    · constructor
      · simp [trace_step, hig, h0, h2, hl, hc]
      · simp [trace_step, hig, h0, h2, hl, hc, tdContains]

/-- Witness for the amended C2 at the concrete §8 scenario. -/
theorem trace_zero_pub_witness :
    LogEntry.errorNoPublisher "N1" "/b" ∈ (trace_step trace_env "N1" trace_state "/b").logs ∧
    (trace_step trace_env "N1" trace_state "/b").topics_to_check_next_round = ["/b"] := by
  obtain ⟨h1, h2⟩ := trace_zero_pub trace_env "N1" trace_state "/b" (by decide) (by decide)
  refine ⟨h1, ?_⟩
  rw [h2]
  decide

/-! ### C3: type-resolution failure -/

theorem check_topic_fields (env : GraphEnv) (s : CheckerState) (t : String) :
    (check_topic env s t).checked_topics = s.checked_topics ∧
    (check_topic env s t).reported_topics = s.reported_topics ∧
    (check_topic env s t).important_topics = s.important_topics ∧
    (check_topic env s t).ignore_topics = s.ignore_topics ∧
    (check_topic env s t).topics_to_check_next_round = s.topics_to_check_next_round := by
  rcases check_topic_cases env s t with ⟨l, heq, _⟩ | heq <;> rw [heq] <;>
    exact ⟨rfl, rfl, rfl, rfl, rfl⟩

theorem check_topics_step_checked (env : GraphEnv) (s : CheckerState) (u : String) :
    (check_topics_step env s u).checked_topics = s.checked_topics ∨
    (check_topics_step env s u).checked_topics = setInsert s.checked_topics u := by
  unfold check_topics_step
  split_ifs with hc
  · exact Or.inl rfl
  · right
    dsimp only
    rw [(check_topic_fields env s u).1]

theorem check_topics_step_checked_mem (env : GraphEnv) (s : CheckerState)
    (u t : String) (h : t ∈ s.checked_topics) :
    t ∈ (check_topics_step env s u).checked_topics := by
  rcases check_topics_step_checked env s u with he | he <;> rw [he]
  · exact h
  · exact subset_setInsert _ _ h

theorem check_topics_fold_checked (env : GraphEnv) (l : List String) :
    ∀ (s : CheckerState) (t : String), t ∈ l ∨ t ∈ s.checked_topics →
      t ∈ (l.foldl (check_topics_step env) s).checked_topics := by
  induction l with
  | nil =>
    intro s t h
    rcases h with h | h
    · cases h
    · exact h
  | cons u rest ih =>
    intro s t h
    rw [List.foldl_cons]
    apply ih
    rcases h with h | h
    · rcases List.mem_cons.mp h with rfl | h2
      · right
        unfold check_topics_step
        split_ifs with hc
        · exact hc
        · dsimp only
          rw [(check_topic_fields env s t).1]
          exact (mem_setInsert _ _ _).mpr (Or.inl rfl)
      · left
        exact h2
    · right
      exact check_topics_step_checked_mem env s u t h

theorem check_topics_sub_id (env : GraphEnv) (s : CheckerState)
    (h : ∀ u ∈ s.important_topics, u ∈ s.checked_topics) :
    check_topics_sub env s = s := by
  unfold check_topics_sub
  have main : ∀ l : List String, (∀ u ∈ l, u ∈ s.checked_topics) →
      l.foldl (check_topics_step env) s = s := by
    intro l
    induction l with
    | nil => intro _; rfl
    | cons u rest ih =>
      intro hl
      have hu : u ∈ s.checked_topics := hl u (List.mem_cons_self u rest)
      have hstep : check_topics_step env s u = s := by
        unfold check_topics_step
        rw [if_pos hu]
      rw [List.foldl_cons, hstep]
      exact ih (fun v hv => hl v (List.mem_cons_of_mem u hv))
  exact main s.important_topics h

/-- C3 counterexample: with `/x` unresolvable, the round's subscribe loop
creates no observation and no subscription for `/x` (the skip part of the
claim holds) but `/x` IS added to `checked_topics`, so running the loop
again with `/x` still in `important_topics` is a no-op — the topic is
recorded as checked and is not retried, contradicting the claim's
parenthetical. -/
theorem type_failure_checked_cex :
    "/x" ∈ (check_topics_sub empty_env noType_state).checked_topics ∧
    (check_topics_sub empty_env noType_state).topic_data = [] ∧
    (check_topics_sub empty_env noType_state).subscriptions = [] ∧
    check_topics_sub empty_env (check_topics_sub empty_env noType_state) =
      check_topics_sub empty_env noType_state := by
  decide

/-- C3 (amended): after a type-resolution failure the topic is skipped for
the round without creating an observation or subscription (only a warning
is logged), but the subscribe loop still records it in `checked_topics`, so
re-adding it to `important_topics` later does not retry it: once every
important topic is checked the subscribe loop is the identity. -/
theorem type_failure_skipped_but_checked (env : GraphEnv) (s : CheckerState) (t : String)
    (ht : get_topic_type env.topic_names_and_types t = none) :
    (check_topic env s t).topic_data = s.topic_data ∧
    (check_topic env s t).subscriptions = s.subscriptions ∧
    (check_topic env s t).logs = s.logs ++ [LogEntry.warnNoType t] ∧
    (t ∈ s.important_topics → t ∈ (check_topics_sub env s).checked_topics) ∧
    (∀ s1 : CheckerState, (∀ u ∈ s1.important_topics, u ∈ s1.checked_topics) →
      check_topics_sub env s1 = s1) := by
  refine ⟨?_, ?_, ?_, ?_, ?_⟩
  · simp [check_topic, ht]
  · simp [check_topic, ht]
  · simp [check_topic, ht]
  · intro hm
    exact check_topics_fold_checked env s.important_topics s t (Or.inl hm)
  · intro s1 h1
    exact check_topics_sub_id env s1 h1

/-- Witness for the amended C3 at the concrete input. -/
theorem type_failure_skipped_but_checked_witness :
    (check_topic empty_env noType_state "/x").topic_data = [] ∧
    (check_topic empty_env noType_state "/x").subscriptions = [] ∧
    "/x" ∈ (check_topics_sub empty_env noType_state).checked_topics := by
  obtain ⟨h1, h2, _, h4, _⟩ :=
    type_failure_skipped_but_checked empty_env noType_state "/x" (by decide)
  exact ⟨h1.trans (by decide), h2.trans (by decide), h4 (by decide)⟩

/-! ### C4: finish_check and missing observations -/

/-- The `(node_name, node_namespace)` pairs `finish_check` stores. -/
def pubPairs (env : GraphEnv) (t : String) : List (String × String) :=
  (env.publishers_info t).map (fun p => (p.node_name, p.node_namespace))

theorem finish_check_go_spec (env : GraphEnv) (l : List String) :
    ∀ s : CheckerState, (∀ t ∈ l, tdContains s.topic_data t = true) →
      ∃ s1, finish_check_go env l s = some s1 ∧
        (∀ t, tdLookup s1.topic_data t =
          if t ∈ l then
            (tdLookup s.topic_data t).map
              (fun d => { d with publishers := pubPairs env t })
          else tdLookup s.topic_data t) ∧
        s1.important_topics = s.important_topics ∧
        s1.ignore_topics = s.ignore_topics ∧
        s1.topics_to_check_next_round = s.topics_to_check_next_round ∧
        s1.checked_topics = s.checked_topics ∧
        s1.reported_topics = s.reported_topics ∧
        s1.subscriptions = s.subscriptions ∧
        s1.logs = s.logs := by
  induction l with
  | nil =>
    intro s _
    exact ⟨s, rfl, by intro t; simp, rfl, rfl, rfl, rfl, rfl, rfl, rfl⟩
  | cons topic rest ih =>
    intro s h
    have hc : tdContains s.topic_data topic = true := h topic (List.mem_cons_self _ _)
    obtain ⟨s1, heq, hlook, hf1, hf2, hf3, hf4, hf5, hf6, hf7⟩ :=
      ih { s with
            topic_data := tdUpdate s.topic_data topic
              (fun d => { d with publishers := pubPairs env topic }) }
        (by
          intro t htmem
          dsimp only
          rw [tdContains_tdUpdate]
          exact h t (List.mem_cons_of_mem _ htmem))
    refine ⟨s1, ?_, ?_, hf1, hf2, hf3, hf4, hf5, hf6, hf7⟩
    · unfold finish_check_go
      rw [if_pos hc]
      exact heq
    · intro t
      rw [hlook t]
      dsimp only
      rw [tdLookup_tdUpdate]
      by_cases hmr : t ∈ rest <;> by_cases het : topic = t
      · subst het
        simp only [hmr, if_pos, List.mem_cons, true_or, or_true, if_true]
        cases tdLookup s.topic_data topic with
        | none => simp
        | some d => simp
      · have het2 : ¬t = topic := fun h => het h.symm
        simp [hmr, het, het2, List.mem_cons]
      · subst het
        simp only [hmr, if_false, if_pos rfl, List.mem_cons, true_or, if_true]
      · have het2 : ¬t = topic := fun h => het h.symm
        simp [hmr, het, het2, List.mem_cons]

theorem finish_check_go_none (env : GraphEnv) (l : List String) :
    ∀ (s : CheckerState) (t : String), t ∈ l → tdContains s.topic_data t = false →
      finish_check_go env l s = none := by
  induction l with
  | nil =>
    intro s t h _
    cases h
  | cons u rest ih =>
    intro s t h hf
    rcases List.mem_cons.mp h with rfl | h2
    · unfold finish_check_go
      rw [if_neg (by simp [hf])]
    · by_cases hcu : tdContains s.topic_data u = true
      · unfold finish_check_go
        rw [if_pos hcu]
        apply ih _ t h2
        dsimp only
        rw [tdContains_tdUpdate]
        exact hf
      · unfold finish_check_go
        rw [if_neg (by simpa using hcu)]

/-- C4 counterexample: in a round where the only important topic `/x` had
its type resolution fail, `finish_check` hits a missing `topic_data` entry
and raises (`none`), so the whole round raises — contradicting the claim
that `finish_check` succeeds in that situation. -/
theorem finish_check_keyerror_cex :
    finish_check empty_env (deliver_all empty_env (check_topics_sub empty_env noType_state)) =
      none ∧
    run_round empty_env noType_state = none := by
  decide

/-- C4 (amended): `finish_check` resolves and stores the current publisher
list as `(node_name, node_namespace)` pairs into the observation of every
topic in the round's `important_topics` and leaves other observations
alone — but only when every important topic has an observation entry; if
any important topic has no entry (e.g. because its type resolution failed
earlier in the round), `finish_check` raises a lookup failure instead. -/
theorem finish_check_behaviour (env : GraphEnv) (s : CheckerState) :
    ((∀ t ∈ s.important_topics, tdContains s.topic_data t = true) →
      ∃ s1, finish_check env s = some s1 ∧
        (∀ t ∈ s.important_topics,
          tdLookup s1.topic_data t =
            (tdLookup s.topic_data t).map
              (fun d => { d with publishers := pubPairs env t })) ∧
        (∀ t, t ∉ s.important_topics →
          tdLookup s1.topic_data t = tdLookup s.topic_data t)) ∧
    (∀ t ∈ s.important_topics, tdContains s.topic_data t = false →
      finish_check env s = none) := by
  constructor
  · intro h
    obtain ⟨s1, heq, hlook, _⟩ := finish_check_go_spec env s.important_topics s h
    refine ⟨s1, heq, ?_, ?_⟩
    · intro t htm
      rw [hlook t, if_pos htm]
    · intro t htm
      rw [hlook t, if_neg htm]
  · intro t htm hf
    exact finish_check_go_none env s.important_topics s t htm hf

/-- Witness for the amended C4: on the closed first-round state of the §8
scenario, `finish_check` succeeds and stores `[("N1", "/")]` for `/a`. -/
theorem finish_check_behaviour_witness :
    ∃ s1, finish_check trace_env trace_state = some s1 ∧
      tdLookup s1.topic_data "/a" =
        some { received := false, publishers := [("N1", "/")], last_received := none } := by
  obtain ⟨s1, heq, hlook, _⟩ := (finish_check_behaviour trace_env trace_state).1 (by decide)
  refine ⟨s1, heq, ?_⟩
  rw [hlook "/a" (by decide)]
  decide

/-! ### The classification loop of analyze_results, entry by entry -/

theorem classify_entry_untouched (acc : CheckerState × List String)
    (e : String × TopicObservation) (t : String) (hne : e.1 ≠ t) :
    countStuck t (classify_entry acc e).1.logs = countStuck t acc.1.logs ∧
    countUnexpected t (classify_entry acc e).1.logs = countUnexpected t acc.1.logs ∧
    (t ∈ (classify_entry acc e).1.reported_topics ↔ t ∈ acc.1.reported_topics) ∧
    (t ∈ (classify_entry acc e).2 ↔ t ∈ acc.2) ∧
    (classify_entry acc e).1.ignore_topics = acc.1.ignore_topics := by
  have hne2 : t ≠ e.1 := fun h => hne h.symm
  rcases classify_entry_cases acc e with ⟨heq, _⟩ | ⟨heq, _⟩ | ⟨heq, _⟩ <;> rw [heq]
  · refine ⟨?_, ?_, ?_, ?_, rfl⟩
    · simp [countStuck, List.countP_append, isStuckWarnFor, hne]
    · simp [countUnexpected, List.countP_append, isUnexpectedFor]
    · simp [mem_setInsert, hne2]
    · simp [List.mem_append, hne2]
  · exact ⟨rfl, rfl, Iff.rfl, Iff.rfl, rfl⟩
  · refine ⟨?_, ?_, Iff.rfl, Iff.rfl, rfl⟩
    · simp [countStuck, List.countP_append, isStuckWarnFor]
    · simp [countUnexpected, List.countP_append, isUnexpectedFor, hne]

theorem classify_fold_untouched (t : String) (l : List (String × TopicObservation)) :
    ∀ acc : CheckerState × List String, t ∉ l.map Prod.fst →
      countStuck t (l.foldl classify_entry acc).1.logs = countStuck t acc.1.logs ∧
      countUnexpected t (l.foldl classify_entry acc).1.logs = countUnexpected t acc.1.logs ∧
      (t ∈ (l.foldl classify_entry acc).1.reported_topics ↔ t ∈ acc.1.reported_topics) ∧
      (t ∈ (l.foldl classify_entry acc).2 ↔ t ∈ acc.2) ∧
      (l.foldl classify_entry acc).1.ignore_topics = acc.1.ignore_topics := by
  induction l with
  | nil =>
    intro acc _
    exact ⟨rfl, rfl, Iff.rfl, Iff.rfl, rfl⟩
  | cons e rest ih =>
    intro acc hmem
    have hne : e.1 ≠ t := by
      intro h
      exact hmem (by simp [h])
    have hrest : t ∉ rest.map Prod.fst := by
      intro h
      exact hmem (by simp [h])
    obtain ⟨he1, he2, he3, he4, he5⟩ := classify_entry_untouched acc e t hne
    obtain ⟨hr1, hr2, hr3, hr4, hr5⟩ := ih (classify_entry acc e) hrest
    rw [List.foldl_cons]
    exact ⟨hr1.trans he1, hr2.trans he2, hr3.trans he3, hr4.trans he4, hr5.trans he5⟩

theorem classify_entry_self (acc : CheckerState × List String) (t : String)
    (d : TopicObservation) :
    countStuck t (classify_entry acc (t, d)).1.logs =
      countStuck t acc.1.logs +
        (if d.received = false ∧ t ∉ acc.1.ignore_topics ∧ d.publishers.length = 1 ∧
            t ∉ acc.1.reported_topics then 1 else 0) ∧
    countUnexpected t (classify_entry acc (t, d)).1.logs =
      countUnexpected t acc.1.logs +
        (if d.received = true ∧ d.last_received = none then 1 else 0) ∧
    (t ∈ (classify_entry acc (t, d)).2 ↔
      (t ∈ acc.2 ∨ (d.received = false ∧ t ∉ acc.1.ignore_topics ∧
        d.publishers.length = 1 ∧ t ∉ acc.1.reported_topics))) ∧
    (t ∈ (classify_entry acc (t, d)).1.reported_topics ↔
      (t ∈ acc.1.reported_topics ∨ (d.received = false ∧ t ∉ acc.1.ignore_topics ∧
        d.publishers.length = 1))) ∧
    (classify_entry acc (t, d)).1.ignore_topics = acc.1.ignore_topics := by
  by_cases h1 : d.received = false
  · have h1t : d.received ≠ true := by simp [h1]
    by_cases h2 : t ∉ acc.1.ignore_topics ∧ d.publishers.length = 1 ∧
        t ∉ acc.1.reported_topics
    · have heq : classify_entry acc (t, d) =
          ({ acc.1 with
              logs := acc.1.logs ++
                [LogEntry.warnStuck t (d.publishers.headD ("", "")).1]
              reported_topics := setInsert acc.1.reported_topics t },
            acc.2 ++ [t]) := by
        simp [classify_entry, h1, h2]
      rw [heq]
      refine ⟨?_, ?_, ?_, ?_, rfl⟩
      · simp [countStuck, List.countP_append, isStuckWarnFor, h1, h2]
      · simp [countUnexpected, List.countP_append, isUnexpectedFor, h1t]
      · simp [List.mem_append, h1, h2]
      · simp [mem_setInsert, h1, h2]
    · have heq : classify_entry acc (t, d) = acc := by
        simp [classify_entry, h1, h2]
      rw [heq]
      refine ⟨?_, ?_, ?_, ?_, rfl⟩
      · simp [h2]
      · simp [h1t]
      · constructor
        · intro h
          exact Or.inl h
        · rintro (h | ⟨_, hb, hc, hd⟩)
          · exact h
          · exact absurd ⟨hb, hc, hd⟩ h2
      · constructor
        · intro h
          exact Or.inl h
        · rintro (h | ⟨_, hb, hc⟩)
          · exact h
          · by_cases hrep : t ∈ acc.1.reported_topics
            · exact hrep
            · exact absurd ⟨hb, hc, hrep⟩ h2
  · have h1t : d.received = true := by
      cases h : d.received with
      | false => exact absurd h h1
      | true => rfl
    by_cases h3 : d.last_received.isSome = true
    · have h3n : d.last_received ≠ none := by
        intro h
        rw [h] at h3
        simp at h3
      have heq : classify_entry acc (t, d) = acc := by
        simp [classify_entry, h1, h3]
      rw [heq]
      refine ⟨by simp [h1], by simp [h3n], ?_, ?_, rfl⟩
      · simp [h1]
      · simp [h1]
    · have h3n : d.last_received = none := Option.not_isSome_iff_eq_none.mp (by simpa using h3)
      have heq : classify_entry acc (t, d) =
          ({ acc.1 with logs := acc.1.logs ++ [LogEntry.warnUnexpected t] }, acc.2) := by
        simp [classify_entry, h1, h3]
      rw [heq]
      refine ⟨?_, ?_, ?_, ?_, rfl⟩
      · simp [countStuck, List.countP_append, isStuckWarnFor, h1]
      · simp [countUnexpected, List.countP_append, isUnexpectedFor, h1t, h3n]
      · simp [h1]
      · simp [h1]

/-- The per-topic effect of the classification loop: for a tracked entry
`(t, d)` of `topic_data` (keys duplicate-free), the loop emits one stuck
warning about `t` exactly when `d` was not received, `t` is not ignored,
has exactly one publisher and was not already reported; it emits one
unexpected-state warning exactly when `d` was received but has no
timestamp; membership of `t` in the stuck work list and the new reported
set are characterized accordingly. -/
theorem analyze_classify_at_key (s : CheckerState) (t : String) (d : TopicObservation)
    (hnd : (s.topic_data.map Prod.fst).Nodup) (hmem : (t, d) ∈ s.topic_data) :
    (t ∈ (analyze_classify s).2 ↔
      (d.received = false ∧ t ∉ s.ignore_topics ∧ d.publishers.length = 1 ∧
        t ∉ s.reported_topics)) ∧
    countStuck t (analyze_classify s).1.logs =
      countStuck t s.logs +
        (if d.received = false ∧ t ∉ s.ignore_topics ∧ d.publishers.length = 1 ∧
            t ∉ s.reported_topics then 1 else 0) ∧
    countUnexpected t (analyze_classify s).1.logs =
      countUnexpected t s.logs +
        (if d.received = true ∧ d.last_received = none then 1 else 0) ∧
    (t ∈ (analyze_classify s).1.reported_topics ↔
      (t ∈ s.reported_topics ∨
        (d.received = false ∧ t ∉ s.ignore_topics ∧ d.publishers.length = 1))) := by
  obtain ⟨l1, l2, hsplit⟩ := List.append_of_mem hmem
  have hnd2 := hnd
  rw [hsplit, List.map_append, List.map_cons, List.nodup_append] at hnd2
  obtain ⟨hndl1, hndc, hdisj⟩ := hnd2
  have ht2 : t ∉ l2.map Prod.fst := by
    have := List.nodup_cons.mp hndc
    simpa using this.1
  have ht1 : t ∉ l1.map Prod.fst := by
    intro h
    exact hdisj h (List.mem_cons_self _ _)
  have hfold : analyze_classify s =
      l2.foldl classify_entry (classify_entry (l1.foldl classify_entry (s, [])) (t, d)) := by
    unfold analyze_classify
    rw [hsplit, List.foldl_append, List.foldl_cons]
  obtain ⟨ha1, ha2, ha3, ha4, ha5⟩ := classify_fold_untouched t l1 (s, []) ht1
  obtain ⟨hm1, hm2, hm3, hm4, hm5⟩ :=
    classify_entry_self (l1.foldl classify_entry (s, [])) t d
  obtain ⟨hb1, hb2, hb3, hb4, hb5⟩ :=
    classify_fold_untouched t l2 (classify_entry (l1.foldl classify_entry (s, [])) (t, d)) ht2
  rw [ha5] at hm1 hm3 hm4
  rw [hfold]
  have hcondStuck :
      (d.received = false ∧ t ∉ s.ignore_topics ∧ d.publishers.length = 1 ∧
        t ∉ (l1.foldl classify_entry (s, [])).1.reported_topics) ↔
      (d.received = false ∧ t ∉ s.ignore_topics ∧ d.publishers.length = 1 ∧
        t ∉ s.reported_topics) := by
    constructor
    · rintro ⟨x1, x2, x3, x4⟩
      exact ⟨x1, x2, x3, fun h => x4 (ha3.mpr h)⟩
    · rintro ⟨x1, x2, x3, x4⟩
      exact ⟨x1, x2, x3, fun h => x4 (ha3.mp h)⟩
  refine ⟨?_, ?_, ?_, ?_⟩
  · rw [hb4, hm3]
    simp only [ha4, List.not_mem_nil, false_or]
    exact hcondStuck
  · rw [hb1, hm1, ha1]
    congr 1
    exact if_congr hcondStuck rfl rfl
  · rw [hb2, hm2, ha2]
  · rw [hb3, hm4, ha3]

/-! ### C5: which states produce the unexpected-state warning -/

/-- A tracked topic whose observation was received but carries no
timestamp. -/
def weird_state : CheckerState :=
  { initial_state with
    topic_data :=
      [("/w", { received := true, publishers := [], last_received := none })] }

/-- C5 counterexample: `/z` is tracked, not received, has zero publishers
and is unreported — by the claim it must get an "unexpected state" warning,
but the classification loop emits no log at all for it (the warning is tied
to the `received == true`, `last_received == None` branch only). -/
theorem no_unexpected_warning_cex :
    (analyze_classify silent_state).1.logs = [] ∧
    (analyze_classify silent_state).2 = [] := by
  decide

/-- C5 (amended): the classification loop emits the "unexpected state"
warning for a tracked topic exactly when its observation has
`received == true` and a null timestamp; in every other non-healthy,
non-stuck state (in particular a not-received topic with zero or more than
one publisher, or one already reported) it emits no unexpected-state
warning. -/
theorem unexpected_warning_characterization (s : CheckerState) (t : String)
    (d : TopicObservation) (hnd : (s.topic_data.map Prod.fst).Nodup)
    (hmem : (t, d) ∈ s.topic_data) :
    countUnexpected t (analyze_classify s).1.logs =
      countUnexpected t s.logs +
        (if d.received = true ∧ d.last_received = none then 1 else 0) :=
  (analyze_classify_at_key s t d hnd hmem).2.2.1

/-- Witness for the amended C5: the warning fires for the
received-without-timestamp topic `/w` and does not fire for the silent
zero-publisher topic `/z`. -/
theorem unexpected_warning_characterization_witness :
    countUnexpected "/w" (analyze_classify weird_state).1.logs = 1 ∧
    countUnexpected "/z" (analyze_classify silent_state).1.logs = 0 := by
  have h1 := unexpected_warning_characterization weird_state "/w"
    { received := true, publishers := [], last_received := none } (by decide) (by decide)
  have h2 := unexpected_warning_characterization silent_state "/z"
    { received := false, publishers := [], last_received := none } (by decide) (by decide)
  constructor
  · rw [h1]
    decide
  · rw [h2]
    decide

/-! ### The at-most-once discipline for stuck warnings -/

/-- The reporting discipline for topic `t`: at most one stuck warning is in
the log, and none at all while `t` is unreported. -/
def StuckOnce (t : String) (s : CheckerState) : Prop :=
  countStuck t s.logs ≤ 1 ∧ (t ∉ s.reported_topics → countStuck t s.logs = 0)

theorem StuckOnce_of_shape (t : String) (s s1 : CheckerState)
    (hlog : countStuck t s1.logs = countStuck t s.logs)
    (hrep : ∀ x ∈ s.reported_topics, x ∈ s1.reported_topics)
    (h : StuckOnce t s) : StuckOnce t s1 := by
  obtain ⟨h1, h2⟩ := h
  exact ⟨hlog ▸ h1, fun hn => hlog ▸ h2 (fun hm => hn (hrep t hm))⟩

theorem check_topic_StuckOnce (env : GraphEnv) (t : String) (s : CheckerState)
    (u : String) (h : StuckOnce t s) : StuckOnce t (check_topic env s u) := by
  rcases check_topic_cases env s u with ⟨l, heq, hcnt, _⟩ | heq <;> rw [heq]
  · refine StuckOnce_of_shape t s _ ?_ (fun x hx => hx) h
    simp [countStuck, List.countP_append]
    simpa [countStuck] using hcnt t
  · exact StuckOnce_of_shape t s _ rfl (fun x hx => hx) h

theorem check_topics_step_StuckOnce (env : GraphEnv) (t : String) (s : CheckerState)
    (u : String) (h : StuckOnce t s) : StuckOnce t (check_topics_step env s u) := by
  unfold check_topics_step
  split_ifs with hc
  · exact h
  · dsimp only
    have h2 := check_topic_StuckOnce env t s u h
    exact StuckOnce_of_shape t (check_topic env s u) _ rfl (fun x hx => hx) h2

theorem check_topics_sub_StuckOnce (env : GraphEnv) (t : String) (s : CheckerState)
    (h : StuckOnce t s) : StuckOnce t (check_topics_sub env s) :=
  foldl_preserve (StuckOnce t) (check_topics_step env)
    (fun s1 u h1 => check_topics_step_StuckOnce env t s1 u h1) s.important_topics s h

theorem deliver_step_StuckOnce (env : GraphEnv) (t : String) (s : CheckerState)
    (sub : String × QoSProfile) (h : StuckOnce t s) :
    StuckOnce t (deliver_step env s sub) := by
  unfold deliver_step
  cases env.arrivals sub.1 with
  | none => exact h
  | some now => exact StuckOnce_of_shape t s _ rfl (fun x hx => hx) h

theorem deliver_all_StuckOnce (env : GraphEnv) (t : String) (s : CheckerState)
    (h : StuckOnce t s) : StuckOnce t (deliver_all env s) :=
  foldl_preserve (StuckOnce t) (deliver_step env)
    (fun s1 u h1 => deliver_step_StuckOnce env t s1 u h1) s.subscriptions s h

theorem finish_check_go_frame (env : GraphEnv) (l : List String) :
    ∀ s s1 : CheckerState, finish_check_go env l s = some s1 →
      s1.logs = s.logs ∧ s1.reported_topics = s.reported_topics ∧
      s1.checked_topics = s.checked_topics ∧ s1.subscriptions = s.subscriptions ∧
      s1.important_topics = s.important_topics ∧ s1.ignore_topics = s.ignore_topics ∧
      s1.topics_to_check_next_round = s.topics_to_check_next_round ∧
      s1.topic_data.map Prod.fst = s.topic_data.map Prod.fst := by
  induction l with
  | nil =>
    intro s s1 h
    cases h
    exact ⟨rfl, rfl, rfl, rfl, rfl, rfl, rfl, rfl⟩
  | cons u rest ih =>
    intro s s1 h
    unfold finish_check_go at h
    split_ifs at h with hc
    · obtain ⟨g1, g2, g3, g4, g5, g6, g7, g8⟩ := ih _ s1 h
      refine ⟨g1, g2, g3, g4, g5, g6, g7, ?_⟩
      rw [g8]
      show (tdUpdate s.topic_data u (fun d =>
          { d with publishers := List.map (fun p => (p.node_name, p.node_namespace)) (env.publishers_info u) })).map Prod.fst =
        s.topic_data.map Prod.fst
      exact tdUpdate_keys _ _ _

theorem finish_check_StuckOnce (env : GraphEnv) (t : String) (s s1 : CheckerState)
    (heq : finish_check env s = some s1) (h : StuckOnce t s) : StuckOnce t s1 := by
  obtain ⟨g1, g2, _⟩ := finish_check_go_frame env s.important_topics s s1 heq
  refine StuckOnce_of_shape t s s1 ?_ ?_ h
  · rw [g1]
  · rw [g2]
    exact fun x hx => hx

theorem classify_entry_StuckOnce (t : String) (acc : CheckerState × List String)
    (e : String × TopicObservation) (h : StuckOnce t acc.1) :
    StuckOnce t (classify_entry acc e).1 := by
  obtain ⟨t0, d⟩ := e
  by_cases hne : t0 = t
  · subst hne
    obtain ⟨hm1, _, _, hm4, _⟩ := classify_entry_self acc t0 d
    by_cases hcond : d.received = false ∧ t0 ∉ acc.1.ignore_topics ∧
        d.publishers.length = 1 ∧ t0 ∉ acc.1.reported_topics
    · rw [if_pos hcond] at hm1
      have hzero : countStuck t0 acc.1.logs = 0 := h.2 hcond.2.2.2
      constructor
      · rw [hm1, hzero]
      · intro hn
        exact absurd (hm4.mpr (Or.inr ⟨hcond.1, hcond.2.1, hcond.2.2.1⟩)) hn
    · rw [if_neg hcond] at hm1
      constructor
      · rw [hm1]
        exact h.1
      · intro hn
        rw [hm1]
        exact h.2 (fun hm => hn (hm4.mpr (Or.inl hm)))
  · obtain ⟨he1, _, he3, _, _⟩ := classify_entry_untouched acc (t0, d) t hne
    constructor
    · rw [he1]
      exact h.1
    · intro hn
      rw [he1]
      exact h.2 (fun hm => hn (he3.mpr hm))

theorem analyze_classify_StuckOnce (t : String) (s : CheckerState)
    (h : StuckOnce t s) : StuckOnce t (analyze_classify s).1 := by
  unfold analyze_classify
  exact foldl_preserve (fun acc : CheckerState × List String => StuckOnce t acc.1)
    classify_entry (fun acc e h1 => classify_entry_StuckOnce t acc e h1)
    s.topic_data (s, []) h

theorem trace_step_StuckOnce (env : GraphEnv) (n t : String) (s : CheckerState)
    (u : String) (h : StuckOnce t s) : StuckOnce t (trace_step env n s u) := by
  obtain ⟨l, f, heq, _, hcnt, _⟩ := trace_step_cases env n s u
  rw [heq]
  refine StuckOnce_of_shape t s _ ?_ (fun x hx => hx) h
  simp [countStuck, List.countP_append]
  simpa [countStuck] using hcnt t

theorem trace_node_StuckOnce (env : GraphEnv) (t : String) (s : CheckerState)
    (pub : String × String) (h : StuckOnce t s) : StuckOnce t (trace_node env s pub) :=
  foldl_preserve (StuckOnce t) (trace_step env pub.1)
    (fun s1 u h1 => trace_step_StuckOnce env pub.1 t s1 u h1)
    (env.node_subscriptions pub.1 pub.2) s h

theorem analyze_topic_connections_StuckOnce (env : GraphEnv) (t : String)
    (s : CheckerState) (u : String) (h : StuckOnce t s) :
    StuckOnce t (analyze_topic_connections env s u) := by
  unfold analyze_topic_connections
  exact foldl_preserve (StuckOnce t) (trace_node env)
    (fun s1 pub h1 => trace_node_StuckOnce env t s1 pub h1) _ s h

theorem analyze_results_StuckOnce (env : GraphEnv) (t : String) (s : CheckerState)
    (h : StuckOnce t s) : StuckOnce t (analyze_results env s).1 := by
  unfold analyze_results
  have h1 := analyze_classify_StuckOnce t s h
  have h2 : StuckOnce t ((analyze_classify s).2.foldl (analyze_topic_connections env)
      (analyze_classify s).1) :=
    foldl_preserve (StuckOnce t) (analyze_topic_connections env)
      (fun s1 u hP => analyze_topic_connections_StuckOnce env t s1 u hP) _ _ h1
  dsimp only
  split_ifs with hf
  · exact h2
  · exact StuckOnce_of_shape t
      ((analyze_classify s).2.foldl (analyze_topic_connections env) (analyze_classify s).1) _
      (by simp [countStuck, List.countP_append, isStuckWarnFor])
      (fun x hx => hx) h2

theorem run_round_StuckOnce (env : GraphEnv) (t : String) (s : CheckerState)
    (p : CheckerState × Bool) (heq : run_round env s = some p) (h : StuckOnce t s) :
    StuckOnce t p.1 := by
  unfold run_round at heq
  cases hfc : finish_check env (deliver_all env (check_topics_sub env s)) with
  | none =>
    rw [hfc] at heq
    cases heq
  | some s3 =>
    rw [hfc] at heq
    have h1 := check_topics_sub_StuckOnce env t s h
    have h2 := deliver_all_StuckOnce env t _ h1
    have h3 := finish_check_StuckOnce env t _ s3 hfc h2
    have h4 := analyze_results_StuckOnce env t s3 h3
    cases heq
    exact h4

theorem run_rounds_StuckOnce (env : GraphEnv) (t : String) :
    ∀ (fuel : Nat) (s sf : CheckerState), StuckOnce t s →
      run_rounds env fuel s = some sf → StuckOnce t sf := by
  intro fuel
  induction fuel with
  | zero =>
    intro s sf _ h
    cases h
  | succ n ih =>
    intro s sf h hrun
    unfold run_rounds at hrun
    cases hrr : run_round env s with
    | none =>
      rw [hrr] at hrun
      cases hrun
    | some p =>
      rw [hrr] at hrun
      have hp := run_round_StuckOnce env t s p hrr h
      obtain ⟨s1, b⟩ := p
      cases b with
      | true => exact ih s1 sf hp hrun
      | false =>
        cases hrun
        exact hp

/-! ### C1: the stuck classification and the once-only reporting -/

/-- `trace_env` with a resolvable type for `/b` as well, so the discovered
second round runs to completion. -/
def run_env : GraphEnv :=
  { trace_env with
    topic_names_and_types :=
      [("/a", ["std_msgs/msg/Header"]), ("/b", ["std_msgs/msg/Header"])] }

/-- C1: in the classification loop of `analyze_results`, a tracked topic
whose observation has `received == false` is reported as stuck — added to
the stuck work list, one stuck warning emitted, and added to
`reported_topics` — iff it is not ignored, has exactly one publisher, and
is not already reported; and across any number of consecutive rounds
(`run_rounds` from a state with no stuck warning for the topic and the
topic unreported) at most one stuck warning for the topic is ever in the
log, so a topic stuck in several consecutive rounds is warned exactly once
in total. -/
theorem stuck_report_iff_once (s : CheckerState) (t : String) (d : TopicObservation)
    (hnd : (s.topic_data.map Prod.fst).Nodup) (hmem : (t, d) ∈ s.topic_data)
    (hrecv : d.received = false) :
    (t ∈ (analyze_classify s).2 ↔
      (t ∉ s.ignore_topics ∧ d.publishers.length = 1 ∧ t ∉ s.reported_topics)) ∧
    (t ∈ (analyze_classify s).2 →
      countStuck t (analyze_classify s).1.logs = countStuck t s.logs + 1 ∧
      t ∈ (analyze_classify s).1.reported_topics) ∧
    (∀ (env : GraphEnv) (fuel : Nat) (s0 sf : CheckerState),
      countStuck t s0.logs = 0 → t ∉ s0.reported_topics →
      run_rounds env fuel s0 = some sf → countStuck t sf.logs ≤ 1) := by
  obtain ⟨hiff, hcnt, _, hrep⟩ := analyze_classify_at_key s t d hnd hmem
  refine ⟨?_, ?_, ?_⟩
  · rw [hiff]
    simp [hrecv]
  · intro hm
    have hcond := hiff.mp hm
    constructor
    · rw [hcnt, if_pos hcond]
    · exact hrep.mpr (Or.inr ⟨hcond.1, hcond.2.1, hcond.2.2.1⟩)
  · intro env fuel s0 sf h0 hr0 hrun
    have hso : StuckOnce t s0 := ⟨by omega, fun _ => h0⟩
    exact (run_rounds_StuckOnce env t fuel s0 sf hso hrun).1

/-- Witness for C1 on the §8 scenario: `/a` is classified stuck, lands in
the reported set, and a full multi-round run (where `/a` stays stuck in
both rounds) carries at most one stuck warning for `/a`. -/
theorem stuck_report_iff_once_witness :
    "/a" ∈ (analyze_classify trace_state).2 ∧
    "/a" ∈ (analyze_classify trace_state).1.reported_topics ∧
    countStuck "/a" (((run_rounds run_env 3 trace_state).getD initial_state).logs) ≤ 1 := by
  have h := stuck_report_iff_once trace_state "/a"
    { received := false, publishers := [("N1", "/")], last_received := none }
    (by decide) (by decide) rfl
  have hm : "/a" ∈ (analyze_classify trace_state).2 := h.1.mpr (by decide)
  refine ⟨hm, (h.2.1 hm).2, ?_⟩
  cases hrun : run_rounds run_env 3 trace_state with
  | none => decide
  | some sf =>
    simpa using h.2.2 run_env 3 trace_state sf (by decide) (by decide) hrun

/-! ### C6: the frontier/round transition -/

theorem classify_entry_frontier (acc : CheckerState × List String)
    (e : String × TopicObservation) :
    (classify_entry acc e).1.topics_to_check_next_round =
      acc.1.topics_to_check_next_round := by
  rcases classify_entry_cases acc e with ⟨heq, _⟩ | ⟨heq, _⟩ | ⟨heq, _⟩ <;> rw [heq]

theorem analyze_classify_frontier (s : CheckerState) :
    (analyze_classify s).1.topics_to_check_next_round = s.topics_to_check_next_round := by
  unfold analyze_classify
  exact foldl_preserve
    (fun acc : CheckerState × List String =>
      acc.1.topics_to_check_next_round = s.topics_to_check_next_round)
    classify_entry
    (fun acc e hP => (classify_entry_frontier acc e).trans hP)
    s.topic_data (s, []) rfl

theorem trace_step_frontier_nodup (env : GraphEnv) (n : String) (s : CheckerState)
    (u : String) (h : s.topics_to_check_next_round.Nodup) :
    (trace_step env n s u).topics_to_check_next_round.Nodup := by
  obtain ⟨l, f, heq, hf, _⟩ := trace_step_cases env n s u
  rw [heq]
  rcases hf with rfl | rfl
  · exact h
  · exact nodup_setInsert _ _ h

theorem trace_node_frontier_nodup (env : GraphEnv) (s : CheckerState)
    (pub : String × String) (h : s.topics_to_check_next_round.Nodup) :
    (trace_node env s pub).topics_to_check_next_round.Nodup :=
  foldl_preserve (fun s1 : CheckerState => s1.topics_to_check_next_round.Nodup)
    (trace_step env pub.1)
    (fun s1 u h1 => trace_step_frontier_nodup env pub.1 s1 u h1)
    (env.node_subscriptions pub.1 pub.2) s h

theorem analyze_topic_connections_frontier_nodup (env : GraphEnv) (s : CheckerState)
    (u : String) (h : s.topics_to_check_next_round.Nodup) :
    (analyze_topic_connections env s u).topics_to_check_next_round.Nodup := by
  unfold analyze_topic_connections
  exact foldl_preserve (fun s1 : CheckerState => s1.topics_to_check_next_round.Nodup)
    (trace_node env) (fun s1 pub h1 => trace_node_frontier_nodup env s1 pub h1) _ s h

/-- C6: at the end of `analyze_results`, when the frontier built by tracing
is nonempty, `important_topics` is replaced wholesale by the frontier, the
frontier is cleared and another round is started (the returned flag is
`true`); every topic in the new `important_topics` appears exactly once
(set semantics dedup discoveries along multiple paths); when the frontier
is empty nothing changes and no further round starts. -/
theorem frontier_round_transition (env : GraphEnv) (s : CheckerState)
    (hnd : s.topics_to_check_next_round.Nodup) :
    (((analyze_classify s).2.foldl (analyze_topic_connections env)
        (analyze_classify s).1).topics_to_check_next_round ≠ [] →
      (analyze_results env s).2 = true ∧
      (analyze_results env s).1.important_topics =
        ((analyze_classify s).2.foldl (analyze_topic_connections env)
          (analyze_classify s).1).topics_to_check_next_round ∧
      (analyze_results env s).1.topics_to_check_next_round = [] ∧
      (∀ u ∈ (analyze_results env s).1.important_topics,
        (analyze_results env s).1.important_topics.count u = 1)) ∧
    (((analyze_classify s).2.foldl (analyze_topic_connections env)
        (analyze_classify s).1).topics_to_check_next_round = [] →
      (analyze_results env s).2 = false ∧
      (analyze_results env s).1 =
        (analyze_classify s).2.foldl (analyze_topic_connections env)
          (analyze_classify s).1) := by
  have hnodup : ((analyze_classify s).2.foldl (analyze_topic_connections env)
      (analyze_classify s).1).topics_to_check_next_round.Nodup := by
    refine foldl_preserve
      (fun s1 : CheckerState => s1.topics_to_check_next_round.Nodup)
      (analyze_topic_connections env)
      (fun s1 u h1 => analyze_topic_connections_frontier_nodup env s1 u h1)
      (analyze_classify s).2 (analyze_classify s).1 ?_
    show (analyze_classify s).1.topics_to_check_next_round.Nodup
    rw [analyze_classify_frontier]
    exact hnd
  constructor
  · intro hne
    have hres : analyze_results env s =
        ({ (analyze_classify s).2.foldl (analyze_topic_connections env)
            (analyze_classify s).1 with
            logs := ((analyze_classify s).2.foldl (analyze_topic_connections env)
              (analyze_classify s).1).logs ++
              [LogEntry.infoNextRound (((analyze_classify s).2.foldl
                (analyze_topic_connections env) (analyze_classify s).1).topics_to_check_next_round)]
            important_topics := ((analyze_classify s).2.foldl (analyze_topic_connections env)
              (analyze_classify s).1).topics_to_check_next_round
            topics_to_check_next_round := [] }, true) := by
      unfold analyze_results
      dsimp only
      rw [if_neg hne]
    rw [hres]
    refine ⟨rfl, rfl, rfl, ?_⟩
    intro u hu
    exact List.count_eq_one_of_mem hnodup hu
  · intro hemp
    have hres : analyze_results env s =
        ((analyze_classify s).2.foldl (analyze_topic_connections env)
          (analyze_classify s).1, false) := by
      unfold analyze_results
      dsimp only
      rw [if_pos hemp]
    rw [hres]
    exact ⟨rfl, rfl⟩

/-- Two-path discovery: the stuck topic `/a`'s only publisher `N1`
subscribes to `/c` twice, and `/c` has one publisher and was never
checked. -/
def dup_env : GraphEnv :=
  { topic_names_and_types := [("/a", ["std_msgs/msg/Header"])]
    importable := fun _ => true
    publishers_info := fun t =>
      if t = "/a" ∨ t = "/c" then
        [{ node_name := "N1", node_namespace := "/", qos_profile := sample_qos }]
      else []
    node_subscriptions := fun n _ => if n = "N1" then ["/c", "/c"] else []
    arrivals := fun _ => none }

/-- Witness for C6: `/c` is discovered along two tracing paths in the same
round, yet appears exactly once in the next round's `important_topics`, the
frontier is cleared, and a new round is flagged. -/
theorem frontier_round_transition_witness :
    (analyze_results dup_env trace_state).2 = true ∧
    (analyze_results dup_env trace_state).1.important_topics.count "/c" = 1 ∧
    (analyze_results dup_env trace_state).1.topics_to_check_next_round = [] := by
  have h := frontier_round_transition dup_env trace_state (by decide)
  obtain ⟨h1, h2, h3, h4⟩ := h.1 (by decide)
  refine ⟨h1, ?_, h3⟩
  apply h4
  rw [h2]
  decide

/-! ### C9: structural invariants and monotone growth -/

/-- The invariant of C9: every topic with an observation entry has a
subscription created for it and is in `checked_topics`, and
`reported_topics ⊆ checked_topics`. -/
def ChkInv (s : CheckerState) : Prop :=
  (∀ t ∈ s.topic_data.map Prod.fst,
    t ∈ s.subscriptions.map Prod.fst ∧ t ∈ s.checked_topics) ∧
  (∀ t ∈ s.reported_topics, t ∈ s.checked_topics)

/-- Monotone growth: `checked_topics` and `reported_topics` of `s` survive
into `s1`. -/
def Extends (s s1 : CheckerState) : Prop :=
  (∀ x ∈ s.checked_topics, x ∈ s1.checked_topics) ∧
  (∀ x ∈ s.reported_topics, x ∈ s1.reported_topics)

theorem Extends_refl (s : CheckerState) : Extends s s :=
  ⟨fun _ hx => hx, fun _ hx => hx⟩

theorem Extends_trans {s1 s2 s3 : CheckerState} (h1 : Extends s1 s2)
    (h2 : Extends s2 s3) : Extends s1 s3 :=
  ⟨fun x hx => h2.1 x (h1.1 x hx), fun x hx => h2.2 x (h1.2 x hx)⟩

theorem tdInsert_keys_mem (td : List (String × TopicObservation)) (k : String)
    (v : TopicObservation) (t : String) (h : t ∈ (tdInsert td k v).map Prod.fst) :
    t ∈ td.map Prod.fst ∨ t = k := by
  rw [tdInsert_eq] at h
  split_ifs at h with hc
  · rw [tdUpdate_keys] at h
    exact Or.inl h
  · rw [List.map_append] at h
    rcases List.mem_append.mp h with h1 | h1
    · exact Or.inl h1
    · right
      simpa using h1

theorem check_topics_step_Inv (env : GraphEnv) (s : CheckerState) (u : String)
    (h : ChkInv s) : ChkInv (check_topics_step env s u) ∧ Extends s (check_topics_step env s u) := by
  unfold check_topics_step
  split_ifs with hc
  · exact ⟨h, Extends_refl s⟩
  · dsimp only
    rcases check_topic_cases env s u with ⟨l, heq, _⟩ | heq <;> rw [heq]
    · refine ⟨⟨?_, ?_⟩, ⟨?_, ?_⟩⟩
      · intro t ht
        obtain ⟨h1, h2⟩ := h.1 t ht
        exact ⟨h1, subset_setInsert _ _ h2⟩
      · intro t ht
        exact subset_setInsert _ _ (h.2 t ht)
      · intro x hx
        exact subset_setInsert _ _ hx
      · intro x hx
        exact hx
    · refine ⟨⟨?_, ?_⟩, ⟨?_, ?_⟩⟩
      · intro t ht
        rcases tdInsert_keys_mem s.topic_data u obsInit t ht with h1 | rfl
        · obtain ⟨hs1, hs2⟩ := h.1 t h1
          refine ⟨?_, subset_setInsert _ _ hs2⟩
          rw [List.map_append]
          exact List.mem_append.mpr (Or.inl hs1)
        · refine ⟨?_, (mem_setInsert _ _ _).mpr (Or.inl rfl)⟩
          rw [List.map_append]
          refine List.mem_append.mpr (Or.inr ?_)
          simp
      · intro t ht
        exact subset_setInsert _ _ (h.2 t ht)
      · intro x hx
        exact subset_setInsert _ _ hx
      · intro x hx
        exact hx

theorem check_topics_sub_Inv (env : GraphEnv) (s : CheckerState) (h : ChkInv s) :
    ChkInv (check_topics_sub env s) ∧ Extends s (check_topics_sub env s) := by
  unfold check_topics_sub
  exact foldl_preserve (fun s1 => ChkInv s1 ∧ Extends s s1) (check_topics_step env)
    (fun s1 u hP => ⟨(check_topics_step_Inv env s1 u hP.1).1,
      Extends_trans hP.2 (check_topics_step_Inv env s1 u hP.1).2⟩)
    s.important_topics s ⟨h, Extends_refl s⟩

theorem topic_callback_Inv (s : CheckerState) (u : String) (now : Nat)
    (h : ChkInv s) : ChkInv (topic_callback s u now) ∧ Extends s (topic_callback s u now) := by
  unfold topic_callback
  refine ⟨⟨?_, h.2⟩, Extends_refl s⟩
  intro t ht
  simp only [tdUpdate_keys] at ht
  exact h.1 t ht

theorem deliver_step_Inv (env : GraphEnv) (s : CheckerState) (sub : String × QoSProfile)
    (h : ChkInv s) : ChkInv (deliver_step env s sub) ∧ Extends s (deliver_step env s sub) := by
  unfold deliver_step
  cases env.arrivals sub.1 with
  | none => exact ⟨h, Extends_refl s⟩
  | some now => exact topic_callback_Inv s sub.1 now h

theorem deliver_all_Inv (env : GraphEnv) (s : CheckerState) (h : ChkInv s) :
    ChkInv (deliver_all env s) ∧ Extends s (deliver_all env s) := by
  unfold deliver_all
  exact foldl_preserve (fun s1 => ChkInv s1 ∧ Extends s s1) (deliver_step env)
    (fun s1 u hP => ⟨(deliver_step_Inv env s1 u hP.1).1,
      Extends_trans hP.2 (deliver_step_Inv env s1 u hP.1).2⟩)
    s.subscriptions s ⟨h, Extends_refl s⟩

theorem finish_check_Inv (env : GraphEnv) (s s1 : CheckerState)
    (heq : finish_check env s = some s1) (h : ChkInv s) : ChkInv s1 ∧ Extends s s1 := by
  obtain ⟨_, g2, g3, g4, _, _, _, g8⟩ := finish_check_go_frame env s.important_topics s s1 heq
  refine ⟨⟨?_, ?_⟩, ⟨?_, ?_⟩⟩
  · intro t ht
    rw [g8] at ht
    rw [g4, g3]
    exact h.1 t ht
  · intro t ht
    rw [g2] at ht
    rw [g3]
    exact h.2 t ht
  · intro x hx
    rw [g3]
    exact hx
  · intro x hx
    rw [g2]
    exact hx

theorem classify_entry_state (acc : CheckerState × List String)
    (e : String × TopicObservation) :
    (classify_entry acc e).1.topic_data = acc.1.topic_data ∧
    (classify_entry acc e).1.checked_topics = acc.1.checked_topics ∧
    (classify_entry acc e).1.subscriptions = acc.1.subscriptions ∧
    (classify_entry acc e).1.important_topics = acc.1.important_topics ∧
    (∀ x ∈ (classify_entry acc e).1.reported_topics, x ∈ acc.1.reported_topics ∨ x = e.1) ∧
    (∀ x ∈ acc.1.reported_topics, x ∈ (classify_entry acc e).1.reported_topics) := by
  rcases classify_entry_cases acc e with ⟨heq, _⟩ | ⟨heq, _⟩ | ⟨heq, _⟩ <;> rw [heq]
  · refine ⟨rfl, rfl, rfl, rfl, ?_, ?_⟩
    · intro x hx
      exact ((mem_setInsert _ _ _).mp hx).symm
    · intro x hx
      exact subset_setInsert _ _ hx
  · exact ⟨rfl, rfl, rfl, rfl, fun x hx => Or.inl hx, fun x hx => hx⟩
  · exact ⟨rfl, rfl, rfl, rfl, fun x hx => Or.inl hx, fun x hx => hx⟩

theorem classify_fold_state (l : List (String × TopicObservation)) :
    ∀ acc : CheckerState × List String,
      (l.foldl classify_entry acc).1.topic_data = acc.1.topic_data ∧
      (l.foldl classify_entry acc).1.checked_topics = acc.1.checked_topics ∧
      (l.foldl classify_entry acc).1.subscriptions = acc.1.subscriptions ∧
      (l.foldl classify_entry acc).1.important_topics = acc.1.important_topics ∧
      (∀ x ∈ (l.foldl classify_entry acc).1.reported_topics,
        x ∈ acc.1.reported_topics ∨ x ∈ l.map Prod.fst) ∧
      (∀ x ∈ acc.1.reported_topics, x ∈ (l.foldl classify_entry acc).1.reported_topics) := by
  induction l with
  | nil =>
    intro acc
    exact ⟨rfl, rfl, rfl, rfl, fun x hx => Or.inl hx, fun x hx => hx⟩
  | cons e rest ih =>
    intro acc
    obtain ⟨s1, s2, s3, s4, s5, s6⟩ := classify_entry_state acc e
    obtain ⟨r1, r2, r3, r4, r5, r6⟩ := ih (classify_entry acc e)
    rw [List.foldl_cons]
    refine ⟨r1.trans s1, r2.trans s2, r3.trans s3, r4.trans s4, ?_, ?_⟩
    · intro x hx
      rcases r5 x hx with h1 | h1
      · rcases s5 x h1 with h2 | h2
        · exact Or.inl h2
        · right
          rw [List.map_cons, h2]
          exact List.mem_cons_self _ _
      · right
        rw [List.map_cons]
        exact List.mem_cons_of_mem _ h1
    · intro x hx
      exact r6 x (s6 x hx)

theorem analyze_classify_Inv (s : CheckerState) (h : ChkInv s) :
    ChkInv (analyze_classify s).1 ∧ Extends s (analyze_classify s).1 := by
  unfold analyze_classify
  obtain ⟨g1, g2, g3, g4, g5, g6⟩ := classify_fold_state s.topic_data (s, [])
  refine ⟨⟨?_, ?_⟩, ⟨?_, ?_⟩⟩
  · intro t ht
    rw [g1] at ht
    rw [g3, g2]
    exact h.1 t ht
  · intro t ht
    rcases g5 t ht with h1 | h1
    · rw [g2]
      exact h.2 t h1
    · rw [g2]
      exact (h.1 t h1).2
  · intro x hx
    rw [g2]
    exact hx
  · intro x hx
    exact g6 x hx

theorem trace_step_state (env : GraphEnv) (n : String) (s : CheckerState) (u : String) :
    (trace_step env n s u).topic_data = s.topic_data ∧
    (trace_step env n s u).checked_topics = s.checked_topics ∧
    (trace_step env n s u).reported_topics = s.reported_topics ∧
    (trace_step env n s u).subscriptions = s.subscriptions ∧
    (trace_step env n s u).important_topics = s.important_topics := by
  obtain ⟨l, f, heq, _⟩ := trace_step_cases env n s u
  rw [heq]
  exact ⟨rfl, rfl, rfl, rfl, rfl⟩

theorem trace_node_state (env : GraphEnv) (s : CheckerState) (pub : String × String) :
    (trace_node env s pub).topic_data = s.topic_data ∧
    (trace_node env s pub).checked_topics = s.checked_topics ∧
    (trace_node env s pub).reported_topics = s.reported_topics ∧
    (trace_node env s pub).subscriptions = s.subscriptions ∧
    (trace_node env s pub).important_topics = s.important_topics := by
  unfold trace_node
  exact foldl_preserve
    (fun s1 => s1.topic_data = s.topic_data ∧ s1.checked_topics = s.checked_topics ∧
      s1.reported_topics = s.reported_topics ∧ s1.subscriptions = s.subscriptions ∧
      s1.important_topics = s.important_topics)
    (trace_step env pub.1)
    (fun s1 u hP => by
      obtain ⟨a, b, c, d, e⟩ := trace_step_state env pub.1 s1 u
      exact ⟨a.trans hP.1, b.trans hP.2.1, c.trans hP.2.2.1, d.trans hP.2.2.2.1,
        e.trans hP.2.2.2.2⟩)
    (env.node_subscriptions pub.1 pub.2) s ⟨rfl, rfl, rfl, rfl, rfl⟩

theorem analyze_topic_connections_state (env : GraphEnv) (s : CheckerState) (u : String) :
    (analyze_topic_connections env s u).topic_data = s.topic_data ∧
    (analyze_topic_connections env s u).checked_topics = s.checked_topics ∧
    (analyze_topic_connections env s u).reported_topics = s.reported_topics ∧
    (analyze_topic_connections env s u).subscriptions = s.subscriptions ∧
    (analyze_topic_connections env s u).important_topics = s.important_topics := by
  unfold analyze_topic_connections
  exact foldl_preserve
    (fun s1 => s1.topic_data = s.topic_data ∧ s1.checked_topics = s.checked_topics ∧
      s1.reported_topics = s.reported_topics ∧ s1.subscriptions = s.subscriptions ∧
      s1.important_topics = s.important_topics)
    (trace_node env)
    (fun s1 pub hP => by
      obtain ⟨a, b, c, d, e⟩ := trace_node_state env s1 pub
      exact ⟨a.trans hP.1, b.trans hP.2.1, c.trans hP.2.2.1, d.trans hP.2.2.2.1,
        e.trans hP.2.2.2.2⟩)
    _ s ⟨rfl, rfl, rfl, rfl, rfl⟩

theorem trace_fold_state (env : GraphEnv) (stuck : List String) (s : CheckerState) :
    (stuck.foldl (analyze_topic_connections env) s).topic_data = s.topic_data ∧
    (stuck.foldl (analyze_topic_connections env) s).checked_topics = s.checked_topics ∧
    (stuck.foldl (analyze_topic_connections env) s).reported_topics = s.reported_topics ∧
    (stuck.foldl (analyze_topic_connections env) s).subscriptions = s.subscriptions := by
  have h := foldl_preserve
    (fun s1 => s1.topic_data = s.topic_data ∧ s1.checked_topics = s.checked_topics ∧
      s1.reported_topics = s.reported_topics ∧ s1.subscriptions = s.subscriptions)
    (analyze_topic_connections env)
    (fun s1 u hP => by
      obtain ⟨a, b, c, d, _⟩ := analyze_topic_connections_state env s1 u
      exact ⟨a.trans hP.1, b.trans hP.2.1, c.trans hP.2.2.1, d.trans hP.2.2.2⟩)
    stuck s ⟨rfl, rfl, rfl, rfl⟩
  exact h

theorem analyze_results_Inv (env : GraphEnv) (s : CheckerState) (h : ChkInv s) :
    ChkInv (analyze_results env s).1 ∧ Extends s (analyze_results env s).1 := by
  obtain ⟨hInv1, hExt1⟩ := analyze_classify_Inv s h
  obtain ⟨a, b, c, d⟩ := trace_fold_state env (analyze_classify s).2 (analyze_classify s).1
  have hInv2 : ChkInv ((analyze_classify s).2.foldl (analyze_topic_connections env)
      (analyze_classify s).1) := by
    refine ⟨?_, ?_⟩
    · intro t ht
      rw [a] at ht
      rw [d, b]
      exact hInv1.1 t ht
    · intro t ht
      rw [c] at ht
      rw [b]
      exact hInv1.2 t ht
  have hExt2 : Extends s ((analyze_classify s).2.foldl (analyze_topic_connections env)
      (analyze_classify s).1) := by
    refine Extends_trans hExt1 ⟨?_, ?_⟩
    · intro x hx
      rw [b]
      exact hx
    · intro x hx
      rw [c]
      exact hx
  unfold analyze_results
  dsimp only
  split_ifs with hf
  · exact ⟨hInv2, hExt2⟩
  · constructor
    · exact ⟨fun t ht => hInv2.1 t ht, fun t ht => hInv2.2 t ht⟩
    · exact ⟨fun x hx => hExt2.1 x hx, fun x hx => hExt2.2 x hx⟩

theorem run_round_Inv (env : GraphEnv) (s : CheckerState) (p : CheckerState × Bool)
    (heq : run_round env s = some p) (h : ChkInv s) : ChkInv p.1 ∧ Extends s p.1 := by
  unfold run_round at heq
  cases hfc : finish_check env (deliver_all env (check_topics_sub env s)) with
  | none =>
    rw [hfc] at heq
    cases heq
  | some s3 =>
    rw [hfc] at heq
    obtain ⟨h1, e1⟩ := check_topics_sub_Inv env s h
    obtain ⟨h2, e2⟩ := deliver_all_Inv env _ h1
    obtain ⟨h3, e3⟩ := finish_check_Inv env _ s3 hfc h2
    obtain ⟨h4, e4⟩ := analyze_results_Inv env s3 h3
    cases heq
    exact ⟨h4, Extends_trans e1 (Extends_trans e2 (Extends_trans e3 e4))⟩

theorem run_rounds_Inv (env : GraphEnv) :
    ∀ (fuel : Nat) (s sf : CheckerState), ChkInv s → run_rounds env fuel s = some sf →
      ChkInv sf ∧ Extends s sf := by
  intro fuel
  induction fuel with
  | zero =>
    intro s sf _ h
    cases h
  | succ n ih =>
    intro s sf h hrun
    unfold run_rounds at hrun
    cases hrr : run_round env s with
    | none =>
      rw [hrr] at hrun
      cases hrun
    | some p =>
      rw [hrr] at hrun
      obtain ⟨hp, ep⟩ := run_round_Inv env s p hrr h
      obtain ⟨s1, b⟩ := p
      cases b with
      | true =>
        obtain ⟨hf, ef⟩ := ih s1 sf hp hrun
        exact ⟨hf, Extends_trans ep ef⟩
      | false =>
        cases hrun
        exact ⟨hp, ep⟩

/-- C9: from any state satisfying the invariant, every operation of the
checker preserves it — every topic with an observation entry has been
subscribed to and is in `checked_topics`, `reported_topics ⊆
checked_topics` — and `checked_topics` and `reported_topics` only ever
grow, across single operations, whole rounds, and any number of rounds. -/
theorem checker_invariants (env : GraphEnv) (s : CheckerState) (h : ChkInv s) :
    (ChkInv (check_topics_sub env s) ∧ Extends s (check_topics_sub env s)) ∧
    (ChkInv (deliver_all env s) ∧ Extends s (deliver_all env s)) ∧
    (∀ s1, finish_check env s = some s1 → ChkInv s1 ∧ Extends s s1) ∧
    (ChkInv (analyze_results env s).1 ∧ Extends s (analyze_results env s).1) ∧
    (∀ p, run_round env s = some p → ChkInv p.1 ∧ Extends s p.1) ∧
    (∀ fuel sf, run_rounds env fuel s = some sf → ChkInv sf ∧ Extends s sf) :=
  ⟨check_topics_sub_Inv env s h,
   deliver_all_Inv env s h,
   fun s1 heq => finish_check_Inv env s s1 heq h,
   analyze_results_Inv env s h,
   fun p heq => run_round_Inv env s p heq h,
   fun fuel sf heq => run_rounds_Inv env fuel s sf h heq⟩

/-- Witness for C9: the invariant holds for the concrete first-round state
and is preserved by a full multi-round run of the §8 scenario. -/
theorem checker_invariants_witness :
    ChkInv (analyze_results run_env trace_state).1 ∧
    Extends trace_state (analyze_results run_env trace_state).1 := by
  have hInv : ChkInv trace_state := ⟨by decide, by decide⟩
  exact (checker_invariants run_env trace_state hInv).2.2.2.1

/-! ### C10: received and last_received change together -/

/-- The C10 invariant: in every observation, `received` is true exactly
when `last_received` is non-null. -/
def RecvInv (s : CheckerState) : Prop :=
  ∀ e ∈ s.topic_data, e.2.received = e.2.last_received.isSome

theorem check_topic_RecvInv (env : GraphEnv) (s : CheckerState) (u : String)
    (h : RecvInv s) : RecvInv (check_topic env s u) := by
  rcases check_topic_cases env s u with ⟨l, heq, _⟩ | heq <;> rw [heq]
  · exact h
  · intro e he
    rcases tdInsert_mem s.topic_data u obsInit e he with h1 | h1
    · exact h e h1
    · rw [h1]
      rfl

theorem check_topics_step_RecvInv (env : GraphEnv) (s : CheckerState) (u : String)
    (h : RecvInv s) : RecvInv (check_topics_step env s u) := by
  unfold check_topics_step
  split_ifs with hc
  · exact h
  · dsimp only
    intro e he
    exact check_topic_RecvInv env s u h e he

theorem check_topics_sub_RecvInv (env : GraphEnv) (s : CheckerState)
    (h : RecvInv s) : RecvInv (check_topics_sub env s) :=
  foldl_preserve RecvInv (check_topics_step env)
    (fun s1 u h1 => check_topics_step_RecvInv env s1 u h1) s.important_topics s h

theorem topic_callback_RecvInv (s : CheckerState) (u : String) (now : Nat)
    (h : RecvInv s) : RecvInv (topic_callback s u now) := by
  unfold topic_callback
  intro e he
  dsimp only at he
  rcases tdUpdate_mem s.topic_data u _ e he with ⟨d0, hd0, h1 | h1⟩
  · rw [h1]
    exact h (e.1, d0) hd0
  · rw [h1]
    rfl

theorem deliver_step_RecvInv (env : GraphEnv) (s : CheckerState)
    (sub : String × QoSProfile) (h : RecvInv s) : RecvInv (deliver_step env s sub) := by
  unfold deliver_step
  cases env.arrivals sub.1 with
  | none => exact h
  | some now => exact topic_callback_RecvInv s sub.1 now h

theorem deliver_all_RecvInv (env : GraphEnv) (s : CheckerState) (h : RecvInv s) :
    RecvInv (deliver_all env s) :=
  foldl_preserve RecvInv (deliver_step env)
    (fun s1 u h1 => deliver_step_RecvInv env s1 u h1) s.subscriptions s h

theorem finish_check_go_RecvInv (env : GraphEnv) (l : List String) :
    ∀ s s1 : CheckerState, finish_check_go env l s = some s1 → RecvInv s → RecvInv s1 := by
  induction l with
  | nil =>
    intro s s1 h hr
    cases h
    exact hr
  | cons u rest ih =>
    intro s s1 h hr
    unfold finish_check_go at h
    split_ifs at h with hc
    refine ih _ s1 h ?_
    intro e he
    dsimp only at he
    rcases tdUpdate_mem s.topic_data u _ e he with ⟨d0, hd0, h1 | h1⟩
    · rw [h1]
      exact hr (e.1, d0) hd0
    · rw [h1]
      exact hr (e.1, d0) hd0

theorem analyze_results_RecvInv (env : GraphEnv) (s : CheckerState) (h : RecvInv s) :
    RecvInv (analyze_results env s).1 := by
  obtain ⟨g1, _⟩ := classify_fold_state s.topic_data (s, [])
  obtain ⟨a, _⟩ := trace_fold_state env (analyze_classify s).2 (analyze_classify s).1
  have g1c : (analyze_classify s).1.topic_data = s.topic_data := g1
  have h2 : RecvInv ((analyze_classify s).2.foldl (analyze_topic_connections env)
      (analyze_classify s).1) := by
    intro e he
    rw [a, g1c] at he
    exact h e he
  unfold analyze_results
  dsimp only
  split_ifs with hf
  · exact h2
  · intro e he
    exact h2 e he

theorem run_round_RecvInv (env : GraphEnv) (s : CheckerState) (p : CheckerState × Bool)
    (heq : run_round env s = some p) (h : RecvInv s) : RecvInv p.1 := by
  unfold run_round at heq
  cases hfc : finish_check env (deliver_all env (check_topics_sub env s)) with
  | none =>
    rw [hfc] at heq
    cases heq
  | some s3 =>
    rw [hfc] at heq
    have h1 := check_topics_sub_RecvInv env s h
    have h2 := deliver_all_RecvInv env _ h1
    have h3 := finish_check_go_RecvInv env _ _ s3 hfc h2
    have h4 := analyze_results_RecvInv env s3 h3
    cases heq
    exact h4

theorem run_rounds_RecvInv (env : GraphEnv) :
    ∀ (fuel : Nat) (s sf : CheckerState), RecvInv s → run_rounds env fuel s = some sf →
      RecvInv sf := by
  intro fuel
  induction fuel with
  | zero =>
    intro s sf _ h
    cases h
  | succ n ih =>
    intro s sf h hrun
    unfold run_rounds at hrun
    cases hrr : run_round env s with
    | none =>
      rw [hrr] at hrun
      cases hrun
    | some p =>
      rw [hrr] at hrun
      have hp := run_round_RecvInv env s p hrr h
      obtain ⟨s1, b⟩ := p
      cases b with
      | true => exact ih s1 sf hp hrun
      | false =>
        cases hrun
        exact hp

theorem classify_no_unexpected (s : CheckerState) (h : RecvInv s) :
    (analyze_classify s).1.logs.countP isUnexpectedWarn =
      s.logs.countP isUnexpectedWarn := by
  unfold analyze_classify
  refine foldl_preserve_mem
    (fun acc : CheckerState × List String =>
      acc.1.logs.countP isUnexpectedWarn = s.logs.countP isUnexpectedWarn)
    classify_entry s.topic_data ?_ (s, []) rfl
  intro acc e hemem hP
  rcases classify_entry_cases acc e with ⟨heq, _⟩ | ⟨heq, _⟩ | ⟨heq, hrecv, hnone⟩ <;> rw [heq]
  · simpa [List.countP_append, isUnexpectedWarn] using hP
  · exact hP
  · exfalso
    have hcontr := h e hemem
    rw [hrecv, hnone] at hcontr
    simp at hcontr

theorem check_topics_sub_no_reinit (env : GraphEnv) (s : CheckerState) (t : String)
    (h : t ∈ s.checked_topics) :
    tdLookup (check_topics_sub env s).topic_data t = tdLookup s.topic_data t := by
  unfold check_topics_sub
  refine (foldl_preserve
    (fun s1 => t ∈ s1.checked_topics ∧ tdLookup s1.topic_data t = tdLookup s.topic_data t)
    (check_topics_step env) ?_ s.important_topics s ⟨h, rfl⟩).2
  intro s1 u hP
  unfold check_topics_step
  split_ifs with hc
  · exact hP
  · have hut : u ≠ t := fun hu => hc (hu ▸ hP.1)
    constructor
    · dsimp only
      rw [(check_topic_fields env s1 u).1]
      exact subset_setInsert _ _ hP.1
    · dsimp only
      rcases check_topic_cases env s1 u with ⟨l, heq, _⟩ | heq <;> rw [heq]
      · exact hP.2
      · show tdLookup (tdInsert s1.topic_data u obsInit) t = tdLookup s.topic_data t
        rw [tdLookup_tdInsert_ne _ _ _ _ hut]
        exact hP.2

/-- C10: `received == true` iff `last_received` is non-null, as an
invariant: the fresh observation starts with `received = false` and a null
timestamp, the message callback sets both fields together, and every
operation of the checker preserves the invariant across rounds; under it,
the classification loop emits no "unexpected state" warning (that branch is
unreachable); and a topic already in `checked_topics` is never
re-initialized by the subscribe loop (its observation is untouched). -/
theorem received_timestamp_sync (env : GraphEnv) (s : CheckerState) (h : RecvInv s) :
    RecvInv (check_topics_sub env s) ∧
    (∀ u now, RecvInv (topic_callback s u now)) ∧
    RecvInv (deliver_all env s) ∧
    (∀ s1, finish_check env s = some s1 → RecvInv s1) ∧
    RecvInv (analyze_results env s).1 ∧
    (∀ p, run_round env s = some p → RecvInv p.1) ∧
    (∀ fuel sf, run_rounds env fuel s = some sf → RecvInv sf) ∧
    (analyze_classify s).1.logs.countP isUnexpectedWarn =
      s.logs.countP isUnexpectedWarn ∧
    (∀ t, t ∈ s.checked_topics →
      tdLookup (check_topics_sub env s).topic_data t = tdLookup s.topic_data t) :=
  ⟨check_topics_sub_RecvInv env s h,
   fun u now => topic_callback_RecvInv s u now h,
   deliver_all_RecvInv env s h,
   fun s1 heq => finish_check_go_RecvInv env s.important_topics s s1 heq h,
   analyze_results_RecvInv env s h,
   fun p heq => run_round_RecvInv env s p heq h,
   fun fuel sf heq => run_rounds_RecvInv env fuel s sf h heq,
   classify_no_unexpected s h,
   fun t ht => check_topics_sub_no_reinit env s t ht⟩

/-- Witness for C10 on the §8 scenario state: the invariant survives a full
`analyze_results`, and the classification pass emits no unexpected-state
warning there. -/
theorem received_timestamp_sync_witness :
    RecvInv (analyze_results run_env trace_state).1 ∧
    (analyze_classify trace_state).1.logs.countP isUnexpectedWarn =
      trace_state.logs.countP isUnexpectedWarn := by
  have hr : ∀ e ∈ trace_state.topic_data, e.2.received = e.2.last_received.isSome := by
    decide
  have h := received_timestamp_sync run_env trace_state hr
  exact ⟨h.2.2.2.2.1, h.2.2.2.2.2.2.2.1⟩
